import Mathlib

/-
Shallow embedding of the go-cuesheet CUE-sheet parser/serializer
(package cuesheet: ReadFile / WriteFile and their helpers).

Modelling conventions:
  * Go strings are byte strings indexed bytewise; every byte the code
    inspects (delimiters, quotes, digits, ':') is ASCII, and ASCII bytes
    never occur inside a multi-byte UTF-8 sequence, so a Go string is
    modelled as `List Char` and bytewise scans as char-list scans.
  * The buffered line reader (bufio.Reader with the snapshot/restore
    pushback idiom) is modelled as a list of lines: `linesOf` splits the
    input at every '\n' (each line keeps its '\n', as bufio.ReadString
    does) and drops a final unterminated chunk, because every read loop
    breaks on io.EOF and discards the partial line that came with it.
    Pushing a line back = returning the unconsumed list.
  * Frame is Go uint64; all arithmetic the code performs on it stays far
    below 2^64 for the inputs considered here, so it is modelled as Nat.
  * Go `error` results are `Except Err _` with Err.synErr for
    strconv.ErrSyntax, Err.rangeErr for strconv.ErrRange; a Go panic
    (slice index out of range in ReadString/unquote) is Err.panicErr.
-/

namespace Cue

abbrev Str := List Char

/-- The delimiter set `delims = "\t\n\r "` of the source. -/
def isDelim (c : Char) : Bool := c == '\t' || c == '\n' || c == '\r' || c == ' '

/-- strings.TrimLeft(s, delims). -/
def trimLeft (s : Str) : Str := s.dropWhile isDelim

/-- strings.TrimRight(s, delims). -/
def trimRight (s : Str) : Str := (s.reverse.dropWhile isDelim).reverse

/-- strings.Trim(s, delims). -/
def trim (s : Str) : Str := trimRight (trimLeft s)

/-- isQuoted: the string starts with a double or single quote. -/
def isQuoted : Str → Bool
  | [] => false
  | c :: _ => c == '"' || c == '\''

/-- The escaping loop of quote: backslash before the quote char and backslash. -/
def quoteEsc (q : Char) : Str → Str
  | [] => []
  | c :: r => if c == q || c == '\\' then '\\' :: c :: quoteEsc q r else c :: quoteEsc q r

/-- quote(s, q): wrap in q, escaping q and backslash. -/
def quote (s : Str) (q : Char) : Str := q :: (quoteEsc q s ++ [q])

/-- The index scan of unquote over the text after the opening quote: the
number of interior characters before the closing quote ends the scan (the
scan also ends at end of string).  `none` models the case i = len(s)+1 (a
trailing backslash makes `i++` skip past the end): `s[1:i]` then panics. -/
def scanQ (q : Char) : Str → Option Nat
  | [] => some 0
  | c :: r =>
    if c == q then some 0
    else if c == '\\' then
      match r with
      | [] => none
      | _ :: r2 => (scanQ q r2).map (· + 2)
    else (scanQ q r).map (· + 1)

/-- unquote(s): the raw text (escapes kept verbatim) between s[0] and the
first unescaped occurrence of s[0]; `none` models the panics (empty input,
scan overrun). -/
def unquoteM : Str → Option Str
  | [] => none
  | q :: tail => (scanQ q tail).map (fun n => tail.take n)

/-- The space scan of ReadString: split at the first ' ' (only ' ', not the
other delimiters); `none` when the string has no space. -/
def breakSp : Str → Option (Str × Str)
  | [] => none
  | c :: r => if c == ' ' then some ([], r) else (breakSp r).map (fun p => (c :: p.1, p.2))

/-- ReadString(&s): trims leading delimiters, then takes either a quoted
field (cursor moves just past the closing quote) or the text up to the
first space (cursor past the space), or the whole remainder.  Returns the
field and the new cursor; `none` models the panic `(*s)[len(v)+2:]` when
the closing quote is missing. -/
def ReadStringM (s : Str) : Option (Str × Str) :=
  let t := trimLeft s
  if isQuoted t then
    match unquoteM t with
    | none => none
    | some v => if t.length < v.length + 2 then none else some (v, t.drop (v.length + 2))
  else
    match breakSp t with
    | some (v, r) => some (v, r)
    | none => some (t, [])

/-- Error kinds: strconv.ErrSyntax, strconv.ErrRange, and a Go panic. -/
inductive Err
  | synErr
  | rangeErr
  | panicErr
deriving DecidableEq

instance {ε α : Type} [DecidableEq ε] [DecidableEq α] : DecidableEq (Except ε α) := fun a b =>
  match a, b with
  | .error e1, .error e2 =>
    match decEq e1 e2 with
    | isTrue h => isTrue (h ▸ rfl)
    | isFalse h => isFalse fun k => h (Except.error.inj k)
  | .error _, .ok _ => isFalse fun k => Except.noConfusion k
  | .ok _, .error _ => isFalse fun k => Except.noConfusion k
  | .ok a1, .ok a2 =>
    match decEq a1 a2 with
    | isTrue h => isTrue (h ▸ rfl)
    | isFalse h => isFalse fun k => h (Except.ok.inj k)

def isDigitCh (c : Char) : Bool := 48 ≤ c.toNat && c.toNat ≤ 57

def digitVal (c : Char) : Nat := c.toNat - 48

def digitsVal (s : Str) : Nat := s.foldl (fun a c => a * 10 + digitVal c) 0

/-- strconv.ParseUint(v, 10, 32): base-10 digits only (no sign), value must
fit 32 bits (ErrRange otherwise), empty or non-digit input is ErrSyntax. -/
def parseUint32 (s : Str) : Except Err Nat :=
  if s.isEmpty then .error .synErr
  else if s.all isDigitCh then
    if digitsVal s < 2 ^ 32 then .ok (digitsVal s) else .error .rangeErr
  else .error .synErr

/-- The digit table of strconv (only the base-10 part is ever indexed). -/
def digitChar (d : Nat) : Char :=
  if d = 0 then '0' else if d = 1 then '1' else if d = 2 then '2' else if d = 3 then '3'
  else if d = 4 then '4' else if d = 5 then '5' else if d = 6 then '6' else if d = 7 then '7'
  else if d = 8 then '8' else '9'

/-- strconv.FormatUint(n, 10): decimal digits, most significant first. -/
def uintDigits (n : Nat) : Str :=
  if n < 10 then [digitChar n]
  else uintDigits (n / 10) ++ [digitChar (n % 10)]
termination_by n
decreasing_by exact Nat.div_lt_self (by omega) (by omega)

/-- strings.Split(s, c) for a single-character separator. -/
def splitCh (c : Char) : Str → List Str
  | [] => [[]]
  | x :: xs =>
    match splitCh c xs with
    | [] => [[]]
    | h :: t => if x == c then [] :: h :: t else (x :: h) :: t

/-- ReadUint(&s): extract a field and parse it as a 32-bit unsigned int. -/
def ReadUintE (s : Str) : Except Err (Nat × Str) :=
  match ReadStringM s with
  | none => .error .panicErr
  | some (v, r) =>
    match parseUint32 v with
    | .error e => .error e
    | .ok n => .ok (n, r)

/-- ReadFrame(&s): extract a field, split it on ':' into exactly three
components (ErrSyntax otherwise), parse each as uint32 and combine as
(mm*60+ss)*75+ff. -/
def ReadFrame (s : Str) : Except Err (Nat × Str) :=
  match ReadStringM s with
  | none => .error .panicErr
  | some (v, r) =>
    match splitCh ':' v with
    | [a, b, c] =>
      match parseUint32 a with
      | .error e => .error e
      | .ok mm =>
        match parseUint32 b with
        | .error e => .error e
        | .ok ss =>
          match parseUint32 c with
          | .error e => .error e
          | .ok ff => .ok ((mm * 60 + ss) * 75 + ff, r)
    | _ => .error .synErr

/-- leftPad(s, padStr, overallLen): prepend 1+((overallLen-len(padStr))/len(padStr))
copies of padStr, then keep the LAST overallLen characters.  (At every call
site of the source padStr = "0" and overallLen = 2, where the Go int
arithmetic coincides with Nat arithmetic.) -/
def leftPad (s pad : Str) (overallLen : Nat) : Str :=
  let ret := (List.replicate (1 + (overallLen - pad.length) / pad.length) pad).flatten ++ s
  ret.drop (ret.length - overallLen)

/-- FormatString: quote with '"' exactly when the string contains a delimiter. -/
def FormatString (s : Str) : Str := if s.any isDelim then quote s '"' else s

/-- FormatTrackNumber: decimal, left-padded with '0' to width 2. -/
def FormatTrackNumber (n : Nat) : Str := leftPad (uintDigits n) ['0'] 2

/-- FormatFrame: mm:ss:ff with each component left-padded with '0' to width 2. -/
def FormatFrame (f : Nat) : Str :=
  leftPad (uintDigits (f / 75 / 60)) ['0'] 2 ++ ':' ::
    (leftPad (uintDigits (f / 75 % 60)) ['0'] 2 ++ ':' ::
      leftPad (uintDigits (f % 75)) ['0'] 2)

/-- TrackIndex: an INDEX entry (number, frame position). -/
structure TrackIndex where
  number : Nat
  frame : Nat
deriving DecidableEq

/-- Track, with the flag bitmask as in the source:
Dcp = 2, Four_ch = 4, Pre = 8, Scms = 16, None = 0. -/
structure Track where
  trackNumber : Nat
  trackDataType : Str
  flags : Nat
  isrc : Str
  title : Str
  performer : Str
  songWriter : Str
  composer : Str
  arranger : Str
  message : Str
  pregap : Nat
  postgap : Nat
  index : List TrackIndex
deriving DecidableEq

/-- File: a FILE entry with its tracks. -/
structure File where
  fileName : Str
  fileType : Str
  tracks : List Track
deriving DecidableEq

/-- Cuesheet: the document root. -/
structure Cuesheet where
  rem : List Str
  catalog : Str
  cdTextFile : Str
  title : Str
  performer : Str
  songWriter : Str
  composer : Str
  arranger : Str
  message : Str
  genre : Str
  discId : Str
  upcEan : Str
  pregap : Nat
  postgap : Nat
  file : List File
deriving DecidableEq

/-- The Go zero value Track{}. -/
def defTrack : Track :=
  { trackNumber := 0, trackDataType := [], flags := 0, isrc := [], title := [],
    performer := [], songWriter := [], composer := [], arranger := [], message := [],
    pregap := 0, postgap := 0, index := [] }

/-- The Go zero value Cuesheet{} that ReadFile starts from. -/
def defCuesheet : Cuesheet :=
  { rem := [], catalog := [], cdTextFile := [], title := [], performer := [],
    songWriter := [], composer := [], arranger := [], message := [], genre := [],
    discId := [], upcEan := [], pregap := 0, postgap := 0, file := [] }

/-! ## The line reader -/

/-- The line stream a bufio.Reader yields: the input split after every '\n'
(each line keeps its '\n'); a final chunk with no '\n' is dropped, because
every read loop of the source breaks on the io.EOF that accompanies it. -/
def linesOf : Str → List Str
  | [] => []
  | c :: rest =>
    if c = '\n' then ['\n'] :: linesOf rest
    else
      match linesOf rest with
      | [] => []
      | l :: ls => (c :: l) :: ls

/-! ## The parser -/

/-- The FLAGS token switch: DCP/4CH/PRE/SCMS set their bit, others are ignored. -/
def flagBit (tok : Str) : Nat :=
  if tok = ("DCP").toList then 2
  else if tok = ("4CH").toList then 4
  else if tok = ("PRE").toList then 8
  else if tok = ("SCMS").toList then 16
  else 0

/-- The FLAGS loop: `for len(line) > 0 { switch ReadString(&line) ... }`,
OR-ing recognized tokens into the accumulator. -/
def readFlags (fl : Nat) (l : Str) : Except Err Nat :=
  if hl : l = [] then .ok fl
  else
    match hrs : ReadStringM l with
    | none => .error .panicErr
    | some (tok, r) => readFlags (fl ||| flagBit tok) r
termination_by l.length
decreasing_by
  have hbk : ∀ (t : Str) v r, breakSp t = some (v, r) → r.length < t.length := by
    intro t
    induction t with
    | nil => intro v r h; simp [breakSp] at h
    | cons c cs ih =>
      intro v r h
      simp only [breakSp] at h
      split at h
      · simp only [Option.some.injEq, Prod.mk.injEq] at h
        rw [← h.2]
        simp
      · cases hb : breakSp cs with
        | none => rw [hb] at h; simp at h
        | some p =>
          rw [hb] at h
          simp only [Option.map_some', Option.some.injEq, Prod.mk.injEq] at h
          have := ih p.1 p.2 hb
          rw [← h.2]
          simp only [List.length_cons]
          omega
  have htle : (trimLeft l).length ≤ l.length :=
    List.Sublist.length_le (List.dropWhile_sublist _)
  have hl0 : 0 < l.length := by
    cases l with
    | nil => exact absurd rfl hl
    | cons => simp
  simp only [ReadStringM] at hrs
  split at hrs
  · split at hrs
    · simp at hrs
    · split at hrs
      · simp at hrs
      · simp only [Option.some.injEq, Prod.mk.injEq] at hrs
        rw [← hrs.2]
        simp only [List.length_drop]
        omega
  · split at hrs
    · rename_i v r2 hb
      simp only [Option.some.injEq, Prod.mk.injEq] at hrs
      have := hbk _ v r2 hb
      rw [← hrs.2]
      omega
    · simp only [Option.some.injEq, Prod.mk.injEq] at hrs
      rw [← hrs.2]
      simpa using hl0

/-- One iteration of the track-detail switch of readTrack, on an already
trimmed line whose command has been read off.  `.ok none` is the `default`
branch: the track ends and the (already consumed) line is discarded. -/
def trackStep (t : Track) (cmd l : Str) : Except Err (Option Track) :=
  if cmd = ("FLAGS").toList then
    match readFlags 0 l with
    | .error e => .error e
    | .ok fl => .ok (some { t with flags := fl })
  else if cmd = ("ISRC").toList then .ok (some { t with isrc := l })
  else if cmd = ("TITLE").toList then
    match ReadStringM l with
    | none => .error .panicErr
    | some (v, _) => .ok (some { t with title := v })
  else if cmd = ("PERFORMER").toList then
    match ReadStringM l with
    | none => .error .panicErr
    | some (v, _) => .ok (some { t with performer := v })
  else if cmd = ("SONGWRITER").toList then
    match ReadStringM l with
    | none => .error .panicErr
    | some (v, _) => .ok (some { t with songWriter := v })
  else if cmd = ("COMPOSER").toList then
    match ReadStringM l with
    | none => .error .panicErr
    | some (v, _) => .ok (some { t with composer := v })
  else if cmd = ("ARRANGER").toList then
    match ReadStringM l with
    | none => .error .panicErr
    | some (v, _) => .ok (some { t with arranger := v })
  else if cmd = ("MESSAGE").toList then
    match ReadStringM l with
    | none => .error .panicErr
    | some (v, _) => .ok (some { t with message := v })
  else if cmd = ("PREGAP").toList then
    match ReadFrame l with
    | .error e => .error e
    | .ok (f, _) => .ok (some { t with pregap := f })
  else if cmd = ("POSTGAP").toList then
    match ReadFrame l with
    | .error e => .error e
    | .ok (f, _) => .ok (some { t with postgap := f })
  else if cmd = ("INDEX").toList then
    match ReadUintE l with
    | .error e => .error e
    | .ok (num, l2) =>
      match ReadFrame l2 with
      | .error e => .error e
      | .ok (f, _) => .ok (some { t with index := t.index ++ [⟨num, f⟩] })
  else if cmd = ("REM").toList then .ok (some t)
  else .ok none

/-- readTrack: consume track-detail lines (those with the "    " prefix)
until a line with a different indentation is pushed back, an unrecognized
command ends the track (that line stays consumed), or input ends. -/
def readTrack (t : Track) : List Str → Except Err (Track × List Str)
  | [] => .ok (t, [])
  | line :: rest =>
    if (("    ").toList).isPrefixOf line then
      match ReadStringM (trim line) with
      | none => .error .panicErr
      | some (cmd, l2) =>
        match trackStep t cmd l2 with
        | .error e => .error e
        | .ok none => .ok (t, rest)
        | .ok (some t2) => readTrack t2 rest
    else .ok (t, line :: rest)

/-- readTracks: consume "  "-indented lines; TRACK opens a track (number,
data type, then readTrack); any other command ends the list with the line
consumed; a line without the prefix is pushed back. -/
def readTracks : List Str → Except Err (List Track × List Str)
  | [] => .ok ([], [])
  | line :: rest =>
    if (("  ").toList).isPrefixOf line then
      match ReadStringM (trim line) with
      | none => .error .panicErr
      | some (cmd, l2) =>
        if cmd = ("TRACK").toList then
          match ReadUintE l2 with
          | .error e => .error e
          | .ok (num, l3) =>
            match ReadStringM l3 with
            | none => .error .panicErr
            | some (dt, _) =>
              match hr : readTrack { defTrack with trackNumber := num, trackDataType := dt } rest with
              | .error e => .error e
              | .ok (tr, rest2) =>
                match readTracks rest2 with
                | .error e => .error e
                | .ok (trs, rest3) => .ok (tr :: trs, rest3)
        else .ok ([], rest)
    else .ok ([], line :: rest)
termination_by ls => ls.length
decreasing_by
  have key : ∀ (ls : List Str) t tr r, readTrack t ls = .ok (tr, r) → r.length ≤ ls.length := by
    intro ls
    induction ls with
    | nil =>
      intro t tr r h
      simp only [readTrack, Except.ok.injEq, Prod.mk.injEq] at h
      rw [← h.2]
    | cons l rest ih =>
      intro t tr r h
      simp only [readTrack] at h
      split at h
      · split at h
        · simp at h
        · split at h
          · simp at h
          · simp only [Except.ok.injEq, Prod.mk.injEq] at h
            rw [← h.2]
            simp only [List.length_cons]
            omega
          · have := ih _ tr r h
            simp only [List.length_cons]
            omega
      · simp only [Except.ok.injEq, Prod.mk.injEq] at h
        rw [← h.2]
  have := key _ _ _ _ hr
  simp only [List.length_cons]
  omega

/-- One iteration of the sheet-level switch of ReadFile for every command
except FILE, on a trimmed line whose command has been read off.
Unrecognized commands are ignored. -/
def sheetStep (c : Cuesheet) (cmd l : Str) : Except Err Cuesheet :=
  if cmd = ("REM").toList then .ok { c with rem := c.rem ++ [l] }
  else if cmd = ("CATALOG").toList then .ok { c with catalog := l }
  else if cmd = ("CDTEXTFILE").toList then
    match ReadStringM l with
    | none => .error .panicErr
    | some (v, _) => .ok { c with cdTextFile := v }
  else if cmd = ("TITLE").toList then
    match ReadStringM l with
    | none => .error .panicErr
    | some (v, _) => .ok { c with title := v }
  else if cmd = ("PERFORMER").toList then
    match ReadStringM l with
    | none => .error .panicErr
    | some (v, _) => .ok { c with performer := v }
  else if cmd = ("SONGWRITER").toList then
    match ReadStringM l with
    | none => .error .panicErr
    | some (v, _) => .ok { c with songWriter := v }
  else if cmd = ("COMPOSER").toList then
    match ReadStringM l with
    | none => .error .panicErr
    | some (v, _) => .ok { c with composer := v }
  else if cmd = ("ARRANGER").toList then
    match ReadStringM l with
    | none => .error .panicErr
    | some (v, _) => .ok { c with arranger := v }
  else if cmd = ("MESSAGE").toList then
    match ReadStringM l with
    | none => .error .panicErr
    | some (v, _) => .ok { c with message := v }
  else if cmd = ("GENRE").toList then
    match ReadStringM l with
    | none => .error .panicErr
    | some (v, _) => .ok { c with genre := v }
  else if cmd = ("DISC_ID").toList then
    match ReadStringM l with
    | none => .error .panicErr
    | some (v, _) => .ok { c with discId := v }
  else if cmd = ("UPC_EAN").toList then
    match ReadStringM l with
    | none => .error .panicErr
    | some (v, _) => .ok { c with upcEan := v }
  else if cmd = ("PREGAP").toList then
    match ReadFrame l with
    | .error e => .error e
    | .ok (f, _) => .ok { c with pregap := f }
  else if cmd = ("POSTGAP").toList then
    match ReadFrame l with
    | .error e => .error e
    | .ok (f, _) => .ok { c with postgap := f }
  else .ok c

/-- The main loop of ReadFile over the line stream.  FILE reads the file
name and type and hands the stream to readTracks; every other line goes
through sheetStep. -/
def readFileLoop (c : Cuesheet) : List Str → Except Err Cuesheet
  | [] => .ok c
  | line :: rest =>
    match ReadStringM (trim line) with
    | none => .error .panicErr
    | some (cmd, l2) =>
      if cmd = ("FILE").toList then
        match ReadStringM l2 with
        | none => .error .panicErr
        | some (fname, l3) =>
          match ReadStringM l3 with
          | none => .error .panicErr
          | some (ftype, _) =>
            match ht : readTracks rest with
            | .error e => .error e
            | .ok (trs, rest2) =>
              readFileLoop { c with file := c.file ++ [⟨fname, ftype, trs⟩] } rest2
      else
        match sheetStep c cmd l2 with
        | .error e => .error e
        | .ok c2 => readFileLoop c2 rest
termination_by ls => ls.length
decreasing_by
  · have keyT : ∀ (ls : List Str) t tr r, readTrack t ls = .ok (tr, r) → r.length ≤ ls.length := by
      intro ls
      induction ls with
      | nil =>
        intro t tr r h
        simp only [readTrack, Except.ok.injEq, Prod.mk.injEq] at h
        rw [← h.2]
      | cons l rest ih =>
        intro t tr r h
        simp only [readTrack] at h
        split at h
        · split at h
          · simp at h
          · split at h
            · simp at h
            · simp only [Except.ok.injEq, Prod.mk.injEq] at h
              rw [← h.2]
              simp only [List.length_cons]
              omega
            · have := ih _ tr r h
              simp only [List.length_cons]
              omega
        · simp only [Except.ok.injEq, Prod.mk.injEq] at h
          rw [← h.2]
    have keyTs : ∀ (n : Nat) (ls : List Str), ls.length ≤ n →
        ∀ trs r, readTracks ls = .ok (trs, r) → r.length ≤ ls.length := by
      intro n
      induction n with
      | zero =>
        intro ls hn trs r h
        cases ls with
        | nil => simp only [readTracks, Except.ok.injEq, Prod.mk.injEq] at h; rw [← h.2]
        | cons => simp at hn
      | succ n ih =>
        intro ls hn trs r h
        cases ls with
        | nil => simp only [readTracks, Except.ok.injEq, Prod.mk.injEq] at h; rw [← h.2]
        | cons l rest =>
          simp only [readTracks] at h
          split at h
          · split at h
            · simp at h
            · split at h
              · split at h
                · simp at h
                · split at h
                  · simp at h
                  · split at h
                    · simp at h
                    · rename_i tr2 rest2 hrt
                      split at h
                      · simp at h
                      · rename_i trs2 rest3 hrts
                        simp only [Except.ok.injEq, Prod.mk.injEq] at h
                        have h1 := keyT rest _ tr2 rest2 hrt
                        have h2 := ih rest2 (by simp only [List.length_cons] at hn; omega) trs2 rest3 hrts
                        rw [← h.2]
                        simp only [List.length_cons]
                        omega
              · simp only [Except.ok.injEq, Prod.mk.injEq] at h
                rw [← h.2]
                simp only [List.length_cons]
                omega
          · simp only [Except.ok.injEq, Prod.mk.injEq] at h
            rw [← h.2]
    have := keyTs _ _ le_rfl trs rest2 ht
    simp only [List.length_cons]
    omega
  · simp

/-- ReadFile: parse from the start of the stream with a zero Cuesheet. -/
def ReadFile (s : Str) : Except Err Cuesheet := readFileLoop defCuesheet (linesOf s)

/-! ## The serializer (WriteFile) -/

def eol : Str := ['\n']

/-- The FLAGS output line: set bits in the fixed order DCP, 4CH, PRE, SCMS. -/
def flagsLine (fl : Nat) : Str :=
  ("    FLAGS").toList ++
    (if fl &&& 2 ≠ 0 then (" DCP").toList else []) ++
    (if fl &&& 4 ≠ 0 then (" 4CH").toList else []) ++
    (if fl &&& 8 ≠ 0 then (" PRE").toList else []) ++
    (if fl &&& 16 ≠ 0 then (" SCMS").toList else []) ++ eol

/-- An INDEX output line. -/
def indexLine (ix : TrackIndex) : Str :=
  ("    INDEX ").toList ++ FormatTrackNumber ix.number ++ ' ' :: (FormatFrame ix.frame ++ eol)

/-- The lines WriteFile emits for one track, in the source's order; empty
or zero fields are skipped. -/
def trackLines (t : Track) : List Str :=
  [("  TRACK ").toList ++ FormatTrackNumber t.trackNumber ++ ' ' :: (t.trackDataType ++ eol)]
  ++ (if t.flags ≠ 0 then [flagsLine t.flags] else [])
  ++ (if t.isrc ≠ [] then [("    ISRC ").toList ++ t.isrc ++ eol] else [])
  ++ (if t.title ≠ [] then [("    TITLE ").toList ++ FormatString t.title ++ eol] else [])
  ++ (if t.performer ≠ [] then [("    PERFORMER ").toList ++ FormatString t.performer ++ eol] else [])
  ++ (if t.songWriter ≠ [] then [("    SONGWRITER ").toList ++ FormatString t.songWriter ++ eol] else [])
  ++ (if t.composer ≠ [] then [("    COMPOSER ").toList ++ FormatString t.composer ++ eol] else [])
  ++ (if t.arranger ≠ [] then [("    ARRANGER ").toList ++ FormatString t.arranger ++ eol] else [])
  ++ (if t.message ≠ [] then [("    MESSAGE ").toList ++ FormatString t.message ++ eol] else [])
  ++ (if t.pregap ≠ 0 then [("    PREGAP ").toList ++ FormatFrame t.pregap ++ eol] else [])
  ++ (if t.postgap ≠ 0 then [("    POSTGAP ").toList ++ FormatFrame t.postgap ++ eol] else [])
  ++ t.index.map indexLine

/-- The lines WriteFile emits for one FILE entry. -/
def fileLines (f : File) : List Str :=
  (("FILE ").toList ++ FormatString f.fileName ++ ' ' :: (f.fileType ++ eol))
    :: (f.tracks.map trackLines).flatten

/-- All lines WriteFile emits, in the source's order. -/
def sheetLines (c : Cuesheet) : List Str :=
  c.rem.map (fun r => ("REM ").toList ++ r ++ eol)
  ++ (if c.catalog ≠ [] then [("CATALOG ").toList ++ c.catalog ++ eol] else [])
  ++ (if c.cdTextFile ≠ [] then [("CDTEXTFILE ").toList ++ FormatString c.cdTextFile ++ eol] else [])
  ++ (if c.title ≠ [] then [("TITLE ").toList ++ FormatString c.title ++ eol] else [])
  ++ (if c.performer ≠ [] then [("PERFORMER ").toList ++ FormatString c.performer ++ eol] else [])
  ++ (if c.songWriter ≠ [] then [("SONGWRITER ").toList ++ FormatString c.songWriter ++ eol] else [])
  ++ (if c.composer ≠ [] then [("COMPOSER ").toList ++ FormatString c.composer ++ eol] else [])
  ++ (if c.arranger ≠ [] then [("ARRANGER ").toList ++ FormatString c.arranger ++ eol] else [])
  ++ (if c.message ≠ [] then [("MESSAGE ").toList ++ FormatString c.message ++ eol] else [])
  ++ (if c.genre ≠ [] then [("GENRE ").toList ++ FormatString c.genre ++ eol] else [])
  ++ (if c.discId ≠ [] then [("DISC_ID ").toList ++ FormatString c.discId ++ eol] else [])
  ++ (if c.upcEan ≠ [] then [("UPC_EAN ").toList ++ FormatString c.upcEan ++ eol] else [])
  ++ (if c.pregap ≠ 0 then [("PREGAP ").toList ++ FormatFrame c.pregap ++ eol] else [])
  ++ (if c.postgap ≠ 0 then [("POSTGAP ").toList ++ FormatFrame c.postgap ++ eol] else [])
  ++ (c.file.map fileLines).flatten

/-- WriteFile: the serialized text (the concatenation of all lines). -/
def WriteFile (c : Cuesheet) : Str := (sheetLines c).flatten

/-! ## Validation -/

def optList : Option Err → List Err
  | none => []
  | some e => [e]

/-- isLetter of the source: ASCII A-Z or a-z. -/
def isLetterC (c : Char) : Bool :=
  (65 ≤ c.toNat && c.toNat ≤ 90) || (97 ≤ c.toNat && c.toNat ≤ 122)

def isAlphaNumC (c : Char) : Bool := isLetterC c || isDigitCh c

/-- ValidateCatalog: exactly 13 ASCII digits (ErrSyntax otherwise). -/
def ValidateCatalog (catalog : Str) : Option Err :=
  if catalog.length ≠ 13 then some .synErr
  else if catalog.all isDigitCh then none else some .synErr

/-- ValidateISRC: 12 characters, 2 letters, 3 alphanumerics, 7 digits. -/
def ValidateISRC (isrc : Str) : Option Err :=
  match isrc with
  | [c0, c1, c2, c3, c4, c5, c6, c7, c8, c9, c10, c11] =>
    if isLetterC c0 && isLetterC c1 && isAlphaNumC c2 && isAlphaNumC c3 && isAlphaNumC c4
        && isDigitCh c5 && isDigitCh c6 && isDigitCh c7 && isDigitCh c8 && isDigitCh c9
        && isDigitCh c10 && isDigitCh c11 then none
    else some .synErr
  | _ => some .synErr

/-- The keys of the ValidFileTypes map. -/
def ValidFileTypes : List Str :=
  [("BINARY").toList, ("MOTOROLA").toList, ("AIFF").toList, ("WAVE").toList, ("MP3").toList]

def ValidateFileType (ft : Str) : Option Err :=
  if ft ∈ ValidFileTypes then none else some .synErr

/-- The ValidTrackModes table: track data type name and block size. -/
def ValidTrackModes : List (Str × Nat) :=
  [(("AUDIO").toList, 2352), (("CDG").toList, 2448), (("MODE1/2048").toList, 2048),
   (("MODE1/2352").toList, 2352), (("MODE2/2336").toList, 2336), (("MODE2/2352").toList, 2352),
   (("CDI/2336").toList, 2336), (("CDI/2352").toList, 2352)]

def ValidateTrackDataType (dt : Str) : Option Err :=
  if dt ∈ ValidTrackModes.map Prod.fst then none else some .synErr

/-- Track.Validate: number in 1..99, index numbers in 0..99 (one ErrRange
per offender, in order), INDEX 01 present, ISRC and data type valid; all
violations are accumulated. -/
def Track.Validate (t : Track) : List Err :=
  (if t.trackNumber < 1 ∨ t.trackNumber > 99 then [Err.rangeErr] else [])
  ++ t.index.filterMap (fun ix => if ix.number > 99 then some Err.rangeErr else none)
  ++ (if t.index.any (fun ix => ix.number == 1) then [] else [Err.synErr])
  ++ (if t.isrc = [] then [] else optList (ValidateISRC t.isrc))
  ++ optList (ValidateTrackDataType t.trackDataType)

/-- Cuesheet.Validate: catalog format (when present), at least one FILE,
file types, and every track; all violations are accumulated. -/
def Cuesheet.Validate (c : Cuesheet) : List Err :=
  (if c.catalog = [] then [] else optList (ValidateCatalog c.catalog))
  ++ (if c.file = [] then [Err.synErr] else [])
  ++ (c.file.map (fun f =>
        optList (ValidateFileType f.fileType) ++ (f.tracks.map Track.Validate).flatten)).flatten

/-! ## Well-formedness for the round-trip theorem

The round trip parse ∘ serialize = id fails on some structurally valid
sheets (see the C1 counterexample); these predicates carve out the domain
on which it holds.  A string field is serialization-safe when it has no
newline (a newline would split the emitted line), when quoted (it contains
a delimiter) it has no '"' or '\\' (unquote keeps escapes verbatim), and
when emitted bare it does not start with a quote character (the parser
would treat it as an unterminated quoted field and panic).  REM payloads
are emitted raw, so they must not end in a delimiter (the parser trims the
line).  Frames must stay below 450000 = 100*60*75 (minutes are printed
with leftPad, which keeps only the last two digits), and flags must use
only the four defined bits. -/

def noNL (s : Str) : Bool := s.all (fun c => !(c == '\n'))

def headOkB (s : Str) : Bool :=
  match s with
  | [] => true
  | c :: _ => !(c == '"') && !(c == '\'')

def goodStrB (s : Str) : Bool :=
  noNL s &&
    (if s.any isDelim then s.all (fun c => !(c == '"') && !(c == '\\'))
     else headOkB s)

def goodRemB (r : Str) : Bool :=
  noNL r &&
    (match r.getLast? with
     | none => true
     | some c => !(isDelim c))

def goodIndexB (ix : TrackIndex) : Bool :=
  decide (ix.number ≤ 99) && decide (ix.frame < 450000)

def goodTrackB (t : Track) : Bool :=
  decide (1 ≤ t.trackNumber) && (decide (t.trackNumber ≤ 99) &&
  (decide (t.trackDataType ∈ ValidTrackModes.map Prod.fst) &&
  ((t.flags &&& 30 == t.flags) &&
  ((t.isrc == ([] : Str) || (ValidateISRC t.isrc).isNone) &&
  (goodStrB t.title && (goodStrB t.performer && (goodStrB t.songWriter &&
  (goodStrB t.composer && (goodStrB t.arranger && (goodStrB t.message &&
  (decide (t.pregap < 450000) && (decide (t.postgap < 450000) &&
  t.index.all goodIndexB))))))))))))

def goodFileB (f : File) : Bool :=
  !(f.fileName == ([] : Str)) && (goodStrB f.fileName &&
  (decide (f.fileType ∈ ValidFileTypes) &&
  f.tracks.all goodTrackB))

def CueWF (c : Cuesheet) : Bool :=
  c.rem.all goodRemB &&
  ((c.catalog == ([] : Str) || (ValidateCatalog c.catalog).isNone) &&
  (goodStrB c.cdTextFile && (goodStrB c.title && (goodStrB c.performer &&
  (goodStrB c.songWriter && (goodStrB c.composer && (goodStrB c.arranger &&
  (goodStrB c.message && (goodStrB c.genre && (goodStrB c.discId && (goodStrB c.upcEan &&
  (decide (c.pregap < 450000) && (decide (c.postgap < 450000) &&
  c.file.all goodFileB)))))))))))))

/-! ## Concrete sheets used in the claim theorems -/

/-- A structurally valid sheet whose only index sits at frame 450000
(100 minutes): Validate accepts it, but the minutes do not survive
FormatFrame's two-character left pad. -/
def sheet450 : Cuesheet :=
  { defCuesheet with
    file := [⟨("a.wav").toList, ("WAVE").toList,
      [{ defTrack with
         trackNumber := 1
         trackDataType := ("AUDIO").toList
         index := [⟨1, 450000⟩] }]⟩] }

/-- A track whose only index is number 0: INDEX 01 is missing. -/
def trackNoIdx1 : Track :=
  { defTrack with
    trackNumber := 1
    trackDataType := ("AUDIO").toList
    index := [⟨0, 0⟩] }

/-- A sheet with a 9-character catalog and a track missing INDEX 01. -/
def sheetBadCat : Cuesheet :=
  { defCuesheet with
    catalog := ("123456789").toList
    file := [⟨("a.wav").toList, ("WAVE").toList, [trackNoIdx1]⟩] }

/-- A well-formed sheet on which the amended round-trip theorem is
instantiated: Validate accepts it and it satisfies CueWF. -/
def sheetOK : Cuesheet :=
  { defCuesheet with
    title := ("My Album").toList
    performer := ("Artist").toList
    file := [⟨("a.wav").toList, ("WAVE").toList,
      [{ defTrack with
         trackNumber := 1
         trackDataType := ("AUDIO").toList
         title := ("Song").toList
         index := [⟨1, 0⟩] }]⟩] }

end Cue

namespace Cue

unseal readFlags readFileLoop readTracks uintDigits

/-! ## Character and token lemmas -/

theorem digit_char_ne (c x : Char) (h : isDigitCh c = true) (hx : isDigitCh x = false) :
    c ≠ x := by
  intro he
  subst he
  rw [h] at hx
  cases hx

theorem digit_nodelim (c : Char) (h : isDigitCh c = true) : isDelim c = false := by
  cases hd : isDelim c with
  | false => rfl
  | true =>
    exfalso
    simp only [isDelim, Bool.or_eq_true, beq_iff_eq] at hd
    rcases hd with ((rfl | rfl) | rfl) | rfl <;> exact absurd h (by decide)

theorem trimLeft_cons_nodelim (c : Char) (s : Str) (h : isDelim c = false) :
    trimLeft (c :: s) = c :: s := by
  simp [trimLeft, List.dropWhile_cons, h]

theorem trimLeft_delims_append (p s : Str) (h : ∀ c ∈ p, isDelim c = true) :
    trimLeft (p ++ s) = trimLeft s := by
  induction p with
  | nil => rfl
  | cons c cs ih =>
    simp only [List.cons_append, trimLeft, List.dropWhile_cons,
      h c (List.mem_cons_self c cs), if_true]
    exact ih (fun d hd => h d (List.mem_cons_of_mem _ hd))

theorem trimRight_append_delim (s : Str) (c : Char) (h : isDelim c = true) :
    trimRight (s ++ [c]) = trimRight s := by
  simp [trimRight, List.dropWhile_cons, h]

theorem trimRight_append_nodelim (s : Str) (c : Char) (h : isDelim c = false) :
    trimRight (s ++ [c]) = s ++ [c] := by
  simp [trimRight, List.dropWhile_cons, h]

theorem trimRight_eq_self (s : Str) (h : ∀ c, s.getLast? = some c → isDelim c = false) :
    trimRight s = s := by
  induction s using List.reverseRecOn with
  | nil => rfl
  | append_singleton a c _ => exact trimRight_append_nodelim a c (h c (by simp))

/-- Trimming an emitted line: all-delimiter indentation, a core that starts
and ends with a non-delimiter, and the final newline. -/
theorem trim_line (ind core : Str) (hind : ∀ c ∈ ind, isDelim c = true)
    (hhead : ∀ c cs, core = c :: cs → isDelim c = false)
    (hlast : ∀ c, core.getLast? = some c → isDelim c = false) :
    trim (ind ++ (core ++ ['\n'])) = core := by
  unfold trim
  rw [trimLeft_delims_append ind (core ++ ['\n']) hind]
  cases core with
  | nil => rfl
  | cons c cs =>
    simp only [List.cons_append]
    rw [trimLeft_cons_nodelim _ _ (hhead c cs rfl)]
    rw [show (c :: (cs ++ ['\n'])) = (c :: cs) ++ ['\n'] by simp]
    rw [trimRight_append_delim _ '\n' (by decide)]
    exact trimRight_eq_self _ hlast

theorem breakSp_not_mem (s : Str) (h : ' ' ∉ s) : breakSp s = none := by
  induction s with
  | nil => rfl
  | cons c cs ih =>
    have hc : (c == ' ') = false := by
      simp only [beq_eq_false_iff_ne, ne_eq]
      intro he
      exact h (he ▸ List.mem_cons_self c cs)
    simp only [breakSp, hc, if_false, Bool.false_eq_true]
    rw [ih (fun hm => h (List.mem_cons_of_mem _ hm))]
    rfl

theorem breakSp_append (a r : Str) (h : ' ' ∉ a) : breakSp (a ++ ' ' :: r) = some (a, r) := by
  induction a with
  | nil => simp [breakSp]
  | cons c cs ih =>
    have hc : (c == ' ') = false := by
      simp only [beq_eq_false_iff_ne, ne_eq]
      intro he
      exact h (he ▸ List.mem_cons_self c cs)
    simp only [List.cons_append, breakSp, hc, if_false, Bool.false_eq_true, List.append_eq]
    rw [ih (fun hm => h (List.mem_cons_of_mem _ hm))]
    rfl

/-- ReadString on a bare token followed by a space separator. -/
theorem readString_bare_sep (c : Char) (a r : Str) (hd : isDelim c = false)
    (hq1 : c ≠ '"') (hq2 : c ≠ '\'') (hsp : ' ' ∉ c :: a) :
    ReadStringM ((c :: a) ++ ' ' :: r) = some (c :: a, r) := by
  have ht : trimLeft ((c :: a) ++ ' ' :: r) = (c :: a) ++ ' ' :: r :=
    trimLeft_cons_nodelim c (a ++ ' ' :: r) hd
  have hiq : isQuoted ((c :: a) ++ ' ' :: r) = false := by
    simp [isQuoted, hq1, hq2]
  simp only [ReadStringM, ht, hiq, if_false, Bool.false_eq_true]
  rw [breakSp_append (c :: a) r hsp]

/-- ReadString on a bare token that is the last field of the line. -/
theorem readString_bare_last (c : Char) (a : Str) (hd : isDelim c = false)
    (hq1 : c ≠ '"') (hq2 : c ≠ '\'') (hsp : ' ' ∉ c :: a) :
    ReadStringM (c :: a) = some (c :: a, []) := by
  have ht : trimLeft (c :: a) = c :: a := trimLeft_cons_nodelim c a hd
  have hiq : isQuoted (c :: a) = false := by
    simp [isQuoted, hq1, hq2]
  simp only [ReadStringM, ht, hiq, if_false, Bool.false_eq_true]
  rw [breakSp_not_mem (c :: a) hsp]

theorem scanQ_cons_quote (q : Char) (r : Str) (h : (q == q) = true) :
    scanQ q (q :: r) = some 0 := by
  cases r with
  | nil => simp [scanQ]
  | cons d ds => simp [scanQ]

theorem scanQ_cons_other (q c : Char) (r : Str) (h1 : (c == q) = false)
    (h2 : (c == '\\') = false) :
    scanQ q (c :: r) = (scanQ q r).map (· + 1) := by
  cases r with
  | nil => simp [scanQ, h1, h2]
  | cons d ds => simp [scanQ, h1, h2]

theorem scanQ_clean (s r : Str) (hq : '"' ∉ s) (hb : '\\' ∉ s) :
    scanQ '"' (s ++ '"' :: r) = some s.length := by
  induction s with
  | nil =>
    simp only [List.nil_append]
    rw [scanQ_cons_quote '"' r (by decide)]
    rfl
  | cons c cs ih =>
    have h1 : (c == '"') = false := by
      simp only [beq_eq_false_iff_ne, ne_eq]
      intro he
      exact hq (he ▸ List.mem_cons_self c cs)
    have h2 : (c == '\\') = false := by
      simp only [beq_eq_false_iff_ne, ne_eq]
      intro he
      exact hb (he ▸ List.mem_cons_self c cs)
    simp only [List.cons_append]
    rw [scanQ_cons_other '"' c _ h1 h2]
    rw [ih (fun hm => hq (List.mem_cons_of_mem _ hm)) (fun hm => hb (List.mem_cons_of_mem _ hm))]
    rfl

theorem quoteEsc_id (s : Str) (hq : '"' ∉ s) (hb : '\\' ∉ s) : quoteEsc '"' s = s := by
  induction s with
  | nil => rfl
  | cons c cs ih =>
    have h1 : (c == '"') = false := by
      simp only [beq_eq_false_iff_ne, ne_eq]
      intro he
      exact hq (he ▸ List.mem_cons_self c cs)
    have h2 : (c == '\\') = false := by
      simp only [beq_eq_false_iff_ne, ne_eq]
      intro he
      exact hb (he ▸ List.mem_cons_self c cs)
    simp only [quoteEsc, h1, h2, Bool.or_self, if_false, Bool.false_eq_true]
    rw [ih (fun hm => hq (List.mem_cons_of_mem _ hm)) (fun hm => hb (List.mem_cons_of_mem _ hm))]

/-- ReadString on a double-quoted clean field: returns the unquoted text and
the cursor just past the closing quote. -/
theorem readString_quoted (s r : Str) (hq : '"' ∉ s) (hb : '\\' ∉ s) :
    ReadStringM ('"' :: (s ++ '"' :: r)) = some (s, r) := by
  have ht : trimLeft ('"' :: (s ++ '"' :: r)) = '"' :: (s ++ '"' :: r) :=
    trimLeft_cons_nodelim _ _ (by decide)
  have hiq : isQuoted ('"' :: (s ++ '"' :: r)) = true := by simp [isQuoted]
  have huq : unquoteM ('"' :: (s ++ '"' :: r)) = some ((s ++ '"' :: r).take s.length) := by
    simp only [unquoteM, scanQ_clean s r hq hb, Option.map_some']
  have htake : (s ++ '"' :: r).take s.length = s := by
    rw [List.take_left' rfl]
  have hlen : ('"' :: (s ++ '"' :: r)).length = s.length + r.length + 2 := by
    simp
    omega
  have hdrop : ('"' :: (s ++ '"' :: r)).drop (s.length + 2) = r := by
    have he : '"' :: (s ++ '"' :: r) = (('"' :: s) ++ ['"']) ++ r := by simp
    rw [he]
    have hl : (('"' :: s) ++ ['"']).length = s.length + 2 := by simp
    rw [← hl, List.drop_left]
  simp only [ReadStringM, ht, hiq, if_true, huq, htake, hlen]
  rw [if_neg (by omega)]
  rw [hdrop]

/-! ## Digit-string lemmas -/

theorem digitsVal_append (a : Str) (c : Char) :
    digitsVal (a ++ [c]) = digitsVal a * 10 + digitVal c := by
  simp [digitsVal, List.foldl_append]

theorem digitVal_digitChar : ∀ d, d < 10 → digitVal (digitChar d) = d := by decide

theorem isDigit_digitChar : ∀ d, d < 10 → isDigitCh (digitChar d) = true := by decide

theorem digitsVal_uintDigits (n : Nat) : digitsVal (uintDigits n) = n := by
  induction n using Nat.strong_induction_on with
  | _ n ih =>
    rw [uintDigits]
    by_cases h : n < 10
    · simp only [h, if_true]
      have hd := digitVal_digitChar n h
      simp [digitsVal, hd]
    · simp only [h, if_false]
      rw [digitsVal_append, ih (n / 10) (Nat.div_lt_self (by omega) (by omega))]
      rw [digitVal_digitChar _ (Nat.mod_lt _ (by omega))]
      omega

theorem uintDigits_digits (n : Nat) : ∀ c ∈ uintDigits n, isDigitCh c = true := by
  induction n using Nat.strong_induction_on with
  | _ n ih =>
    rw [uintDigits]
    by_cases h : n < 10
    · simp only [h, if_true]
      intro c hc
      simp only [List.mem_singleton] at hc
      subst hc
      exact isDigit_digitChar n h
    · simp only [h, if_false]
      intro c hc
      rcases List.mem_append.1 hc with hm | hm
      · exact ih (n / 10) (Nat.div_lt_self (by omega) (by omega)) c hm
      · simp only [List.mem_singleton] at hm
        subst hm
        exact isDigit_digitChar _ (Nat.mod_lt _ (by omega))

theorem uintDigits_ne_nil (n : Nat) : uintDigits n ≠ [] := by
  rw [uintDigits]
  by_cases h : n < 10 <;> simp [h]

theorem parseUint32_digits (s : Str) (h : ∀ c ∈ s, isDigitCh c = true) (hn : s ≠ [])
    (hv : digitsVal s < 2 ^ 32) : parseUint32 s = .ok (digitsVal s) := by
  have h1 : s.isEmpty = false := by cases s with | nil => exact absurd rfl hn | cons => rfl
  have h2 : s.all isDigitCh = true := List.all_eq_true.2 h
  have hv2 : digitsVal s < 4294967296 := by simpa using hv
  simp [parseUint32, h1, h2, hv2]

theorem parseUint32_uintDigits (n : Nat) (h : n < 2 ^ 32) :
    parseUint32 (uintDigits n) = .ok n := by
  have := parseUint32_digits (uintDigits n) (uintDigits_digits n) (uintDigits_ne_nil n)
    (by rw [digitsVal_uintDigits]; exact h)
  rw [digitsVal_uintDigits] at this
  exact this

end Cue

namespace Cue

unseal readFlags readFileLoop readTracks uintDigits

/-! ## Claim theorems: the concrete ones -/

/-- C7: parsing an empty (zero-byte) input succeeds and returns a sheet
with zero FileRefs, an empty comment list, and every optional field at its
empty/zero default; end of input closes every scope without error. -/
theorem trsC7 : ReadFile [] = .ok
    { rem := [], catalog := [], cdTextFile := [], title := [], performer := [],
      songWriter := [], composer := [], arranger := [], message := [], genre := [],
      discId := [], upcEan := [], pregap := 0, postgap := 0, file := [] } := by decide

/-- C9: ReadString is not total: on a field that begins with a quote but
has no matching closing quote (the line `TITLE "abc` reaches ReadString as
`"abc`), the cursor update `(*s)[len(v)+2:]` indexes past the end of the
slice, so ReadString panics (modelled as `none`) and ReadFile propagates
the panic instead of returning a parse error. -/
theorem trsC9 : ReadStringM (("\"abc").toList) = none ∧
    ReadFile (("TITLE \"abc\n").toList) = .error .panicErr := by decide

/-- C8: for a sheet whose catalog has length 9 and whose only track has
only INDEX 00, Validate returns both the catalog-format violation and the
missing-mandatory-index violation (two accumulated errors, not just the
first); the catalog check and the track check each contribute one. -/
theorem trsC8 : Cuesheet.Validate sheetBadCat = [Err.synErr, Err.synErr] ∧
    ValidateCatalog sheetBadCat.catalog = some Err.synErr ∧
    Track.Validate trackNoIdx1 = [Err.synErr] := by decide

/-- C6 counterexample: a four-space-indented line with an unrecognized
command (here `TRACK`, which is not a track-detail command) ends the track
but is NOT pushed back: readTrack returns the stream after the line, and
parsing a file whose track block contains such a line yields one track,
not two (the line is silently consumed, never re-read by readTracks). -/
theorem cexC6 :
    readTrack defTrack [("    TRACK 02 AUDIO\n").toList, ("X\n").toList]
      = .ok (defTrack, [("X\n").toList]) ∧
    [("X\n").toList] ≠ [("    TRACK 02 AUDIO\n").toList, ("X\n").toList] ∧
    ReadFile (("FILE f WAVE\n  TRACK 01 AUDIO\n    TRACK 02 AUDIO\n").toList)
      = .ok { defCuesheet with file := [⟨("f").toList, ("WAVE").toList,
          [{ defTrack with trackNumber := 1, trackDataType := ("AUDIO").toList }]⟩] } := by
  decide

/-- C4 counterexample: leftPad keeps only the last two characters, so
FormatTrackNumber 100 is "00" — the digit '1' of 100 is truncated away,
contradicting "padding never truncates". -/
theorem cexC4 : FormatTrackNumber 100 = ['0', '0'] ∧ '1' ∉ FormatTrackNumber 100 := by decide

/-- C5 counterexample: a component that fails unsigned parsing because it
overflows 32 bits makes ReadFrame return ErrRange (the strconv error),
not SyntaxError as the claim states. -/
theorem cexC5 : ReadFrame (("00:00:4294967296").toList) = .error Err.rangeErr ∧
    Err.rangeErr ≠ Err.synErr := by decide

/-- C3 counterexample: at f = 450000 (100 minutes) FormatFrame prints
"00:00:00" (leftPad truncates the minutes), so ReadFrame re-parses it as
frame 0, not 450000 — the round trip has an upper bound. -/
theorem cexC3 : FormatFrame 450000 = ("00:00:00").toList ∧
    ReadFrame (FormatFrame 450000) = .ok (0, []) ∧ (0 : Nat) ≠ 450000 := by decide

/-- C2 counterexample: for s = "\ " (backslash, space) — which contains a
delimiter — quote escapes the backslash but unquote returns the escaped
text verbatim, so unquote(quote(s, '"')) is "\\ " ≠ s. -/
theorem cexC2 : (['\\', ' '] : Str).any isDelim = true ∧
    unquoteM (quote ['\\', ' '] '"') = some ['\\', '\\', ' '] ∧
    unquoteM (quote ['\\', ' '] '"') ≠ some ['\\', ' '] := by decide

/-- C1 counterexample: sheet450 is structurally valid (Validate returns no
violation), yet serializing and re-parsing it changes the index frame
450000 to 0, so ReadFile(WriteFile(S)) ≠ S. -/
theorem cexC1 : Cuesheet.Validate sheet450 = [] ∧
    ReadFile (WriteFile sheet450) ≠ .ok sheet450 := by decide

end Cue

namespace Cue

unseal readFlags readFileLoop readTracks uintDigits

/-! ## Lines lemmas and claim C10 -/

theorem linesOf_no_nl (t : Str) (h : '\n' ∉ t) : linesOf t = [] := by
  induction t with
  | nil => rfl
  | cons c cs ih =>
    have hc : ¬ c = '\n' := fun he => h (he ▸ List.mem_cons_self c cs)
    simp only [linesOf, hc, if_false]
    rw [ih (fun hm => h (List.mem_cons_of_mem _ hm))]

theorem linesOf_append_tail (s t : Str) (h : '\n' ∉ t) : linesOf (s ++ t) = linesOf s := by
  induction s with
  | nil => simpa using linesOf_no_nl t h
  | cons c cs ih =>
    by_cases hc : c = '\n'
    · subst hc
      simp only [List.cons_append, List.append_eq, linesOf, eq_self_iff_true, if_true]
      rw [ih]
    · simp only [List.cons_append, List.append_eq, linesOf, if_neg hc]
      rw [ih]

/-- C10: an input whose final line is not newline-terminated parses exactly
like the input without that final chunk: the buffered read returns the
partial line together with io.EOF and every read loop breaks before
processing it, so the content is silently discarded. -/
theorem trsC10 (s tail : Str) (h : '\n' ∉ tail) : ReadFile (s ++ tail) = ReadFile s := by
  unfold ReadFile
  rw [linesOf_append_tail s tail h]

/-- C10 witness: the single unterminated line `FILE "a.wav" WAVE` parses to
the empty sheet (zero FileRefs), with no error. -/
theorem witC10 : ReadFile (("FILE \"a.wav\" WAVE").toList) = .ok defCuesheet :=
  (trsC10 [] (("FILE \"a.wav\" WAVE").toList) (by decide)).trans (by decide)

/-! ## Claim C6 (amended) -/

/-- C6 amended: a four-space-indented line whose command is not a
recognized track-detail command ends the current track and returns control
to the track-list level, but the line is consumed and discarded, not
pushed back (only a line failing the indentation check is pushed back). -/
theorem trsC6 (t : Track) (line : Str) (rest : List Str) (cmd l2 : Str)
    (hpre : (("    ").toList).isPrefixOf line = true)
    (hcmd : ReadStringM (trim line) = some (cmd, l2))
    (hnot : cmd ∉ [("FLAGS").toList, ("ISRC").toList, ("TITLE").toList, ("PERFORMER").toList,
      ("SONGWRITER").toList, ("COMPOSER").toList, ("ARRANGER").toList, ("MESSAGE").toList,
      ("PREGAP").toList, ("POSTGAP").toList, ("INDEX").toList, ("REM").toList]) :
    readTrack t (line :: rest) = .ok (t, rest) := by
  simp only [List.mem_cons, List.not_mem_nil, or_false, not_or] at hnot
  obtain ⟨h1, h2, h3, h4, h5, h6, h7, h8, h9, h10, h11, h12⟩ := hnot
  have hstep : trackStep t cmd l2 = .ok none := by
    simp only [trackStep, if_neg h1, if_neg h2, if_neg h3, if_neg h4, if_neg h5, if_neg h6,
      if_neg h7, if_neg h8, if_neg h9, if_neg h10, if_neg h11, if_neg h12]
  simp only [readTrack, hpre, if_true, hcmd, hstep]

/-- C6 witness: a concrete unrecognized detail line is consumed. -/
theorem witC6 : readTrack defTrack [("    FOO x\n").toList] = .ok (defTrack, []) :=
  trsC6 defTrack (("    FOO x\n").toList) [] (("FOO").toList) (("x").toList)
    (by decide) (by decide) (by decide)

/-! ## Claim C2 (amended) -/

/-- C2 amended: unquote(quote(s, '"')) == s holds for strings containing a
delimiter only when s contains neither '"' nor '\\' (quote escapes those
characters and unquote keeps the escapes verbatim); for strings without
any delimiter, FormatString(s) == s unchanged. -/
theorem trsC2 :
    (∀ s : Str, s.any isDelim = true → '"' ∉ s → '\\' ∉ s →
      unquoteM (quote s '"') = some s) ∧
    (∀ s : Str, s.any isDelim = false → FormatString s = s) := by
  constructor
  · intro s _ hq hb
    have he : quote s '"' = '"' :: (s ++ '"' :: []) := by
      simp [quote, quoteEsc_id s hq hb]
    rw [he]
    simp only [unquoteM, scanQ_clean s [] hq hb, Option.map_some']
    rw [List.take_left' rfl]
  · intro s h
    simp [FormatString, h]

/-- C2 witness: at s = " " (a delimiter) the quote/unquote pair is the
identity, and at s = "a" (no delimiter) FormatString is the identity. -/
theorem witC2 : unquoteM (quote ([' '] : Str) '"') = some [' '] ∧
    FormatString (['a'] : Str) = ['a'] :=
  ⟨trsC2.1 [' '] (by decide) (by decide) (by decide), trsC2.2 ['a'] (by decide)⟩

end Cue

namespace Cue

unseal readFlags readFileLoop readTracks uintDigits

/-! ## leftPad truncation and claim C4 -/

theorem leftPad2_eq (s : Str) : leftPad s ['0'] 2 = ('0' :: '0' :: s).drop s.length := by
  have h1 : (List.replicate (1 + (2 - List.length (['0'] : Str)) / List.length (['0'] : Str))
      (['0'] : Str)).flatten = ['0', '0'] := by decide
  simp only [leftPad, h1]
  congr 1

theorem leftPad2_length (s : Str) : (leftPad s ['0'] 2).length = 2 := by
  rw [leftPad2_eq]
  simp only [List.length_drop, List.length_cons]
  omega

theorem leftPad2_last2 (B : Str) (x y : Char) : leftPad (B ++ [x, y]) ['0'] 2 = [x, y] := by
  rw [leftPad2_eq]
  rw [show ('0' :: '0' :: (B ++ [x, y])) = (('0' :: '0' :: B) ++ [x, y]) by simp]
  have hlen : (B ++ [x, y]).length = ('0' :: '0' :: B).length := by simp
  rw [hlen, List.drop_left]

theorem uintDigits_ge100 (n : Nat) (h : 100 ≤ n) :
    uintDigits n = uintDigits (n / 100) ++ [digitChar (n / 10 % 10), digitChar (n % 10)] := by
  rw [uintDigits, if_neg (by omega)]
  rw [uintDigits, if_neg (by omega : ¬ n / 10 < 10)]
  rw [Nat.div_div_eq_div_mul]
  simp

theorem fmtTN_mod (n : Nat) : FormatTrackNumber n = FormatTrackNumber (n % 100) := by
  by_cases h : n < 100
  · rw [Nat.mod_eq_of_lt h]
  · unfold FormatTrackNumber
    rw [uintDigits_ge100 n (by omega), leftPad2_last2]
    by_cases h10 : n % 100 < 10
    · rw [uintDigits, if_pos h10, leftPad2_eq]
      rw [show n / 10 % 10 = 0 by omega, show n % 10 = n % 100 by omega]
      rfl
    · rw [uintDigits, if_neg h10]
      rw [uintDigits, if_pos (by omega : n % 100 / 10 < 10)]
      rw [show ([digitChar (n % 100 / 10)] ++ [digitChar (n % 100 % 10)] : Str)
            = ([] : Str) ++ [digitChar (n % 100 / 10), digitChar (n % 100 % 10)] by simp]
      rw [leftPad2_last2]
      rw [show n / 10 % 10 = n % 100 / 10 by omega, show n % 10 = n % 100 % 10 by omega]

theorem fmtFrame_length (f : Nat) : (FormatFrame f).length = 8 := by
  simp only [FormatFrame, List.length_append, List.length_cons, leftPad2_length]

/-- C4 amended: FormatTrackNumber and the components of FormatFrame are
zero-padded to EXACTLY two characters: leftPad keeps only the last
overallLen characters, so values needing more digits are truncated to
their last two (FormatTrackNumber n = FormatTrackNumber (n % 100), and
e.g. FormatTrackNumber 100 = "00"), and FormatFrame is always 8 characters
(mm:ss:ff with two characters each), minutes included. -/
theorem trsC4 (n f : Nat) :
    (FormatTrackNumber n).length = 2 ∧
    FormatTrackNumber n = FormatTrackNumber (n % 100) ∧
    (FormatFrame f).length = 8 :=
  ⟨leftPad2_length _, fmtTN_mod n, fmtFrame_length f⟩

/-! ## splitCh lemmas and the ReadFrame field theorem -/

theorem splitCh_ne_nil (c : Char) (s : Str) : splitCh c s ≠ [] := by
  cases s with
  | nil => simp [splitCh]
  | cons x xs =>
    simp only [splitCh]
    split
    · simp
    · split <;> simp

theorem splitCh_cons_sep (rest : Str) : splitCh ':' (':' :: rest) = [] :: splitCh ':' rest := by
  obtain ⟨h0, t0, hsp⟩ := List.exists_cons_of_ne_nil (splitCh_ne_nil ':' rest)
  simp only [splitCh]
  rw [hsp]
  simp only [beq_self_eq_true, if_true]

theorem splitCh_append_sep (A rest : Str) (h : ':' ∉ A) :
    splitCh ':' (A ++ ':' :: rest) = A :: splitCh ':' rest := by
  induction A with
  | nil => simpa using splitCh_cons_sep rest
  | cons x xs ih =>
    have hx : (x == ':') = false := by
      simp only [beq_eq_false_iff_ne, ne_eq]
      intro he
      exact h (he ▸ List.mem_cons_self x xs)
    simp only [List.cons_append, List.append_eq, splitCh]
    rw [ih (fun hm => h (List.mem_cons_of_mem _ hm))]
    simp [hx]

theorem splitCh_no_sep (C : Str) (h : ':' ∉ C) : splitCh ':' C = [C] := by
  induction C with
  | nil => rfl
  | cons x xs ih =>
    have hx : (x == ':') = false := by
      simp only [beq_eq_false_iff_ne, ne_eq]
      intro he
      exact h (he ▸ List.mem_cons_self x xs)
    simp only [splitCh]
    rw [ih (fun hm => h (List.mem_cons_of_mem _ hm))]
    simp [hx]

/-- ReadFrame on a whole-line field of three nonempty all-digit components:
the value is (A*60+B)*75+C. -/
theorem readFrame_fields (A B C : Str)
    (hA : ∀ c ∈ A, isDigitCh c = true) (hB : ∀ c ∈ B, isDigitCh c = true)
    (hC : ∀ c ∈ C, isDigitCh c = true)
    (hAn : A ≠ []) (hBn : B ≠ []) (hCn : C ≠ [])
    (hvA : digitsVal A < 2 ^ 32) (hvB : digitsVal B < 2 ^ 32) (hvC : digitsVal C < 2 ^ 32) :
    ReadFrame (A ++ ':' :: (B ++ ':' :: C))
      = .ok ((digitsVal A * 60 + digitsVal B) * 75 + digitsVal C, []) := by
  obtain ⟨a0, A2, rfl⟩ := List.exists_cons_of_ne_nil hAn
  have ha0 : isDigitCh a0 = true := hA a0 (List.mem_cons_self _ _)
  have hsp : ' ' ∉ (a0 :: A2) ++ ':' :: (B ++ ':' :: C) := by
    intro hm
    rcases List.mem_append.1 hm with hm | hm
    · exact absurd (hA ' ' hm) (by decide)
    · rcases List.mem_cons.1 hm with he | hm
      · exact absurd he (by decide)
      · rcases List.mem_append.1 hm with hm | hm
        · exact absurd (hB ' ' hm) (by decide)
        · rcases List.mem_cons.1 hm with he | hm
          · exact absurd he (by decide)
          · exact absurd (hC ' ' hm) (by decide)
  have hrs : ReadStringM ((a0 :: A2) ++ ':' :: (B ++ ':' :: C))
      = some ((a0 :: A2) ++ ':' :: (B ++ ':' :: C), []) := by
    have hstep := readString_bare_last a0 (A2 ++ ':' :: (B ++ ':' :: C))
      (digit_nodelim a0 ha0)
      (digit_char_ne a0 '"' ha0 (by decide)) (digit_char_ne a0 '\'' ha0 (by decide))
      (by simpa using hsp)
    simpa using hstep
  have hAc : ':' ∉ (a0 :: A2) := fun hm => absurd (hA ':' hm) (by decide)
  have hBc : ':' ∉ B := fun hm => absurd (hB ':' hm) (by decide)
  have hCc : ':' ∉ C := fun hm => absurd (hC ':' hm) (by decide)
  have hsplit : splitCh ':' ((a0 :: A2) ++ ':' :: (B ++ ':' :: C)) = [a0 :: A2, B, C] := by
    rw [splitCh_append_sep _ _ hAc, splitCh_append_sep _ _ hBc, splitCh_no_sep _ hCc]
  have hpA : parseUint32 (a0 :: A2) = .ok (digitsVal (a0 :: A2)) :=
    parseUint32_digits _ hA (by simp) hvA
  have hpB : parseUint32 B = .ok (digitsVal B) := parseUint32_digits _ hB hBn hvB
  have hpC : parseUint32 C = .ok (digitsVal C) := parseUint32_digits _ hC hCn hvC
  simp only [ReadFrame, hrs, hsplit, hpA, hpB, hpC]

theorem pad2_all_digits : ∀ n, n < 100 → ∀ c ∈ leftPad (uintDigits n) ['0'] 2, isDigitCh c = true := by
  decide

theorem pad2_ne_nil : ∀ n, n < 100 → leftPad (uintDigits n) ['0'] 2 ≠ [] := by decide

theorem pad2_val : ∀ n, n < 100 → digitsVal (leftPad (uintDigits n) ['0'] 2) = n := by decide

theorem readFrame_format (f : Nat) (h : f < 450000) : ReadFrame (FormatFrame f) = .ok (f, []) := by
  have h1 : f / 75 / 60 < 100 := by omega
  have h2 : f / 75 % 60 < 100 := by omega
  have h3 : f % 75 < 100 := by omega
  have hfields := readFrame_fields (leftPad (uintDigits (f / 75 / 60)) ['0'] 2)
    (leftPad (uintDigits (f / 75 % 60)) ['0'] 2) (leftPad (uintDigits (f % 75)) ['0'] 2)
    (pad2_all_digits _ h1) (pad2_all_digits _ h2) (pad2_all_digits _ h3)
    (pad2_ne_nil _ h1) (pad2_ne_nil _ h2) (pad2_ne_nil _ h3)
    (by rw [pad2_val _ h1]; exact lt_trans h1 (by norm_num))
    (by rw [pad2_val _ h2]; exact lt_trans h2 (by norm_num))
    (by rw [pad2_val _ h3]; exact lt_trans h3 (by norm_num))
  rw [pad2_val _ h1, pad2_val _ h2, pad2_val _ h3] at hfields
  rw [show (f / 75 / 60 * 60 + f / 75 % 60) * 75 + f % 75 = f by omega] at hfields
  exact hfields

/-- C3 amended: ReadFrame(FormatFrame(f)) = f holds for all frame counts
f < 450000 (minutes ≤ 99); beyond that leftPad truncates the minutes and
the round trip fails (see the counterexample at 450000). -/
theorem trsC3 (f : Nat) (h : f < 450000) : ReadFrame (FormatFrame f) = .ok (f, []) :=
  readFrame_format f h

/-- C3 witness: the round trip at the concrete frame count 4653. -/
theorem witC3 : ReadFrame (("01:02:03").toList) = .ok (4653, []) := by
  have h := trsC3 4653 (by norm_num)
  rwa [show FormatFrame 4653 = ("01:02:03").toList from by decide] at h

/-- C5 amended: ReadFrame splits its extracted field on ':'; a component
count other than 3 yields ErrSyntax; a failing component propagates that
component's strconv error (ErrSyntax for non-numeric text, ErrRange for
values ≥ 2^32 — see the counterexample); otherwise the result is
(minutes*60 + seconds)*75 + frames, and "01:02:03" parses to 4653. -/
theorem trsC5 :
    ReadFrame (("01:02:03").toList) = .ok (4653, []) ∧
    (∀ s v rest, ReadStringM s = some (v, rest) → (splitCh ':' v).length ≠ 3 →
      ReadFrame s = .error Err.synErr) ∧
    (∀ mm ss ff : Nat, mm < 2 ^ 32 → ss < 2 ^ 32 → ff < 2 ^ 32 →
      ReadFrame (uintDigits mm ++ ':' :: (uintDigits ss ++ ':' :: uintDigits ff))
        = .ok ((mm * 60 + ss) * 75 + ff, [])) := by
  refine ⟨by decide, ?_, ?_⟩
  · intro s v rest h1 h2
    rcases hsp : splitCh ':' v with _ | ⟨a, _ | ⟨b, _ | ⟨c, tl⟩⟩⟩
    · simp [ReadFrame, h1, hsp]
    · simp [ReadFrame, h1, hsp]
    · simp [ReadFrame, h1, hsp]
    · cases tl with
      | nil => exact absurd (by simp [hsp] : (splitCh ':' v).length = 3) h2
      | cons d ds => simp [ReadFrame, h1, hsp]
  · intro mm ss ff hm hs hf
    have hfields := readFrame_fields (uintDigits mm) (uintDigits ss) (uintDigits ff)
      (uintDigits_digits mm) (uintDigits_digits ss) (uintDigits_digits ff)
      (uintDigits_ne_nil mm) (uintDigits_ne_nil ss) (uintDigits_ne_nil ff)
      (by rw [digitsVal_uintDigits]; exact hm) (by rw [digitsVal_uintDigits]; exact hs)
      (by rw [digitsVal_uintDigits]; exact hf)
    rw [digitsVal_uintDigits, digitsVal_uintDigits, digitsVal_uintDigits] at hfields
    exact hfields

/-- C5 witness: the formula conjunct at 2:3:4 and the component-count
conjunct at the two-component field "1:2". -/
theorem witC5 :
    ReadFrame (uintDigits 2 ++ ':' :: (uintDigits 3 ++ ':' :: uintDigits 4))
      = .ok ((2 * 60 + 3) * 75 + 4, []) ∧
    ReadFrame (("1:2").toList) = .error Err.synErr :=
  ⟨trsC5.2.2 2 3 4 (by norm_num) (by norm_num) (by norm_num),
   trsC5.2.1 (("1:2").toList) (("1:2").toList) [] (by decide) (by decide)⟩

end Cue

namespace Cue

unseal readFlags readFileLoop readTracks uintDigits

/-! ## Character-class and payload lemmas for the round-trip theorem -/

theorem mem_of_getLast (l : Str) (a : Char) (h : l.getLast? = some a) : a ∈ l := by
  obtain ⟨h0, rfl⟩ := List.mem_getLast?_eq_getLast (show a ∈ l.getLast? from by rw [h]; rfl)
  exact List.getLast_mem h0

theorem not_mem_of_all (p : Char → Bool) (X : Str) (hall : ∀ c ∈ X, p c = true)
    (x : Char) (hx : p x = false) : x ∉ X := by
  intro hm
  rw [hall x hm] at hx
  cases hx

theorem alnum_nodelim (c : Char) (h : isAlphaNumC c = true) : isDelim c = false := by
  cases hd : isDelim c with
  | false => rfl
  | true =>
    exfalso
    simp only [isDelim, Bool.or_eq_true, beq_iff_eq] at hd
    rcases hd with ((rfl | rfl) | rfl) | rfl <;> exact absurd h (by decide)

theorem alnum_char_ne (c x : Char) (h : isAlphaNumC c = true) (hx : isAlphaNumC x = false) :
    c ≠ x := by
  intro he
  subst he
  rw [h] at hx
  cases hx

theorem digit_alnum (c : Char) (h : isDigitCh c = true) : isAlphaNumC c = true := by
  simp [isAlphaNumC, h]

/-- The characters of a catalog that ValidateCatalog accepts are digits,
and the catalog is nonempty. -/
theorem catalog_facts (cat : Str) (h : (ValidateCatalog cat).isNone = true) :
    (∀ c ∈ cat, isDigitCh c = true) ∧ cat ≠ [] := by
  simp only [ValidateCatalog] at h
  split at h
  · cases h
  · split at h
    · rename_i hlen hall
      refine ⟨List.all_eq_true.1 hall, ?_⟩
      intro he
      subst he
      simp at hlen
    · cases h

/-- The characters of an ISRC that ValidateISRC accepts are alphanumeric,
and the ISRC is nonempty. -/
theorem isrc_facts (isrc : Str) (h : (ValidateISRC isrc).isNone = true) :
    (∀ c ∈ isrc, isAlphaNumC c = true) ∧ isrc ≠ [] := by
  simp only [ValidateISRC] at h
  split at h
  · rename_i c0 c1 c2 c3 c4 c5 c6 c7 c8 c9 c10 c11
    split at h
    · rename_i hcond
      simp only [Bool.and_eq_true] at hcond
      obtain ⟨⟨⟨⟨⟨⟨⟨⟨⟨⟨⟨k0, k1⟩, k2⟩, k3⟩, k4⟩, k5⟩, k6⟩, k7⟩, k8⟩, k9⟩, k10⟩, k11⟩ := hcond
      constructor
      · intro c hc
        simp only [List.mem_cons, List.not_mem_nil, or_false] at hc
        rcases hc with rfl | rfl | rfl | rfl | rfl | rfl | rfl | rfl | rfl | rfl | rfl | rfl
        · simp [isAlphaNumC, k0]
        · simp [isAlphaNumC, k1]
        · exact k2
        · exact k3
        · exact k4
        · exact digit_alnum _ k5
        · exact digit_alnum _ k6
        · exact digit_alnum _ k7
        · exact digit_alnum _ k8
        · exact digit_alnum _ k9
        · exact digit_alnum _ k10
        · exact digit_alnum _ k11
      · intro he
        cases he
    · cases h
  · cases h

/-- goodStrB in the delimiter-containing case. -/
theorem goodStrB_quoted (s : Str) (h : goodStrB s = true) (hd : s.any isDelim = true) :
    '\n' ∉ s ∧ '"' ∉ s ∧ '\\' ∉ s := by
  simp only [goodStrB, hd, if_true, Bool.and_eq_true, noNL, List.all_eq_true] at h
  obtain ⟨h1, h2⟩ := h
  refine ⟨?_, ?_, ?_⟩
  · intro hm
    have := h1 _ hm
    simp at this
  · intro hm
    have := h2 _ hm
    simp at this
  · intro hm
    have := h2 _ hm
    simp at this

/-- goodStrB in the no-delimiter case. -/
theorem goodStrB_bare (s : Str) (h : goodStrB s = true) (hd : s.any isDelim = false) :
    (∀ c ∈ s, isDelim c = false) ∧ headOkB s = true := by
  simp only [goodStrB, hd, Bool.false_eq_true, if_false, Bool.and_eq_true] at h
  refine ⟨?_, h.2⟩
  intro c hc
  cases hdc : isDelim c with
  | false => rfl
  | true =>
    exfalso
    have : s.any isDelim = true := List.any_eq_true.2 ⟨c, hc, hdc⟩
    rw [this] at hd
    cases hd

theorem goodStrB_noNL (s : Str) (h : goodStrB s = true) : '\n' ∉ s := by
  simp only [goodStrB, Bool.and_eq_true, noNL, List.all_eq_true] at h
  intro hm
  have := h.1 _ hm
  simp at this

theorem formatString_ne_nil (s : Str) (hn : s ≠ []) : FormatString s ≠ [] := by
  unfold FormatString
  split
  · simp [quote]
  · exact hn

theorem formatString_noNL (s : Str) (hg : goodStrB s = true) : '\n' ∉ FormatString s := by
  unfold FormatString
  split
  · rename_i hd
    obtain ⟨h1, h2, h3⟩ := goodStrB_quoted s hg hd
    rw [show quote s '"' = '"' :: (s ++ '"' :: []) by simp [quote, quoteEsc_id s h2 h3]]
    intro hm
    rcases List.mem_cons.1 hm with he | hm
    · cases he
    · rcases List.mem_append.1 hm with hm | hm
      · exact h1 hm
      · rcases List.mem_cons.1 hm with he | hm
        · cases he
        · cases hm
  · exact goodStrB_noNL s hg

theorem formatString_last (s : Str) (hg : goodStrB s = true) (hn : s ≠ [])
    (c : Char) (hc : (FormatString s).getLast? = some c) : isDelim c = false := by
  unfold FormatString at hc
  split at hc
  · rename_i hd
    obtain ⟨h1, h2, h3⟩ := goodStrB_quoted s hg hd
    rw [show quote s '"' = ('"' :: (s ++ ['"'])) by simp [quote, quoteEsc_id s h2 h3]] at hc
    rw [show ('"' :: (s ++ ['"'])) = ('"' :: s) ++ ['"'] by simp] at hc
    rw [List.getLast?_append_of_ne_nil _ (by simp)] at hc
    simp only [List.getLast?_singleton, Option.some.injEq] at hc
    subst hc
    rfl
  · rename_i hd
    have hall := (goodStrB_bare s hg (by cases hx : s.any isDelim with
      | false => rfl
      | true => exact absurd hx hd)).1
    exact hall c (mem_of_getLast s c hc)

/-- ReadString applied to a FormatString-emitted field standing at the end
of the line. -/
theorem readString_formatted (s : Str) (hg : goodStrB s = true) (hn : s ≠ []) :
    ReadStringM (FormatString s) = some (s, []) := by
  unfold FormatString
  split
  · rename_i hd
    obtain ⟨h1, h2, h3⟩ := goodStrB_quoted s hg hd
    rw [show quote s '"' = ('"' :: (s ++ '"' :: [])) by simp [quote, quoteEsc_id s h2 h3]]
    exact readString_quoted s [] h2 h3
  · rename_i hd
    obtain ⟨c0, cs, rfl⟩ := List.exists_cons_of_ne_nil hn
    have hall := (goodStrB_bare _ hg (by cases hx : (c0 :: cs).any isDelim with
      | false => rfl
      | true => exact absurd hx hd)).1
    have hok := (goodStrB_bare _ hg (by cases hx : (c0 :: cs).any isDelim with
      | false => rfl
      | true => exact absurd hx hd)).2
    have hq1 : c0 ≠ '"' := by
      intro he
      subst he
      simp [headOkB] at hok
    have hq2 : c0 ≠ '\'' := by
      intro he
      subst he
      simp [headOkB] at hok
    exact readString_bare_last c0 cs (hall c0 (List.mem_cons_self _ _)) hq1 hq2
      (not_mem_of_all (fun c => !(isDelim c)) _ (fun c hc => by simp [hall c hc]) ' ' (by decide))

/-- ReadString applied to a FormatString-emitted field followed by a space
and more text: returns the field, and the remaining cursor parses like the
following text. -/
theorem readString_cons_delim (c : Char) (t : Str) (h : isDelim c = true) :
    ReadStringM (c :: t) = ReadStringM t := by
  simp only [ReadStringM]
  rw [show trimLeft (c :: t) = trimLeft t by simp [trimLeft, List.dropWhile_cons, h]]

theorem readString_formatted_sep (s : Str) (hg : goodStrB s = true) (hn : s ≠ []) (r : Str) :
    ∃ r2, ReadStringM (FormatString s ++ ' ' :: r) = some (s, r2) ∧
      ReadStringM r2 = ReadStringM r := by
  unfold FormatString
  split
  · rename_i hd
    obtain ⟨h1, h2, h3⟩ := goodStrB_quoted s hg hd
    refine ⟨' ' :: r, ?_, ?_⟩
    · rw [show quote s '"' ++ ' ' :: r = ('"' :: (s ++ '"' :: (' ' :: r))) by
        simp [quote, quoteEsc_id s h2 h3]]
      exact readString_quoted s (' ' :: r) h2 h3
    · exact readString_cons_delim ' ' r (by decide)
  · rename_i hd
    obtain ⟨c0, cs, rfl⟩ := List.exists_cons_of_ne_nil hn
    have hall := (goodStrB_bare _ hg (by cases hx : (c0 :: cs).any isDelim with
      | false => rfl
      | true => exact absurd hx hd)).1
    have hok := (goodStrB_bare _ hg (by cases hx : (c0 :: cs).any isDelim with
      | false => rfl
      | true => exact absurd hx hd)).2
    have hq1 : c0 ≠ '"' := by
      intro he
      subst he
      simp [headOkB] at hok
    have hq2 : c0 ≠ '\'' := by
      intro he
      subst he
      simp [headOkB] at hok
    exact ⟨r, readString_bare_sep c0 cs r (hall c0 (List.mem_cons_self _ _)) hq1 hq2
      (not_mem_of_all (fun c => !(isDelim c)) _ (fun c hc => by simp [hall c hc]) ' ' (by decide)), rfl⟩

end Cue

namespace Cue

unseal readFlags readFileLoop readTracks uintDigits

/-! ## Number and frame payload lemmas -/

theorem pad2_parse : ∀ n, n < 100 → parseUint32 (leftPad (uintDigits n) ['0'] 2) = .ok n := by
  decide

/-- ReadUint on a two-digit zero-padded number followed by a space. -/
theorem readUint_pad2 (n : Nat) (hn : n < 100) (rest : Str) :
    ReadUintE (leftPad (uintDigits n) ['0'] 2 ++ ' ' :: rest) = .ok (n, rest) := by
  obtain ⟨x, y, hxy⟩ := List.length_eq_two.1 (leftPad2_length (uintDigits n))
  have hdig := pad2_all_digits n hn
  rw [hxy] at hdig
  have hx : isDigitCh x = true := hdig x (by simp)
  have hy : isDigitCh y = true := hdig y (by simp)
  have hsp : ' ' ∉ [x, y] := by
    intro hm
    rcases List.mem_cons.1 hm with rfl | hm
    · exact absurd hx (by decide)
    · rcases List.mem_cons.1 hm with rfl | hm
      · exact absurd hy (by decide)
      · cases hm
  have hrs := readString_bare_sep x [y] rest (digit_nodelim x hx)
    (digit_char_ne x '"' hx (by decide)) (digit_char_ne x '\'' hx (by decide)) hsp
  have hp : parseUint32 [x, y] = .ok n := by rw [← hxy]; exact pad2_parse n hn
  rw [hxy]
  simp only [ReadUintE, List.cons_append, List.nil_append] at hrs ⊢
  simp only [hrs, hp]

theorem fmtFrame_chars (f : Nat) (h : f < 450000) :
    ∀ c ∈ FormatFrame f, isDigitCh c = true ∨ c = ':' := by
  intro c hc
  have h1 : f / 75 / 60 < 100 := by omega
  have h2 : f / 75 % 60 < 100 := by omega
  have h3 : f % 75 < 100 := by omega
  simp only [FormatFrame] at hc
  rcases List.mem_append.1 hc with hm | hm
  · exact .inl (pad2_all_digits _ h1 c hm)
  · rcases List.mem_cons.1 hm with rfl | hm
    · exact .inr rfl
    · rcases List.mem_append.1 hm with hm | hm
      · exact .inl (pad2_all_digits _ h2 c hm)
      · rcases List.mem_cons.1 hm with rfl | hm
        · exact .inr rfl
        · exact .inl (pad2_all_digits _ h3 c hm)

theorem fmtFrame_nodelim (f : Nat) (h : f < 450000) :
    ∀ c ∈ FormatFrame f, isDelim c = false := by
  intro c hc
  rcases fmtFrame_chars f h c hc with hd | rfl
  · exact digit_nodelim c hd
  · decide

theorem fmtFrame_ne_nil (f : Nat) : FormatFrame f ≠ [] := by
  simp only [FormatFrame]
  simp

theorem fmtFrame_last (f : Nat) (h : f < 450000) (c : Char)
    (hc : (FormatFrame f).getLast? = some c) : isDelim c = false :=
  fmtFrame_nodelim f h c (mem_of_getLast _ c hc)

theorem fmtFrame_noNL (f : Nat) (h : f < 450000) : '\n' ∉ FormatFrame f :=
  not_mem_of_all (fun c => !(isDelim c)) _
    (fun c hc => by simp [fmtFrame_nodelim f h c hc]) '\n' (by decide)

/-! ## Vocabulary token facts -/

theorem safe_chars_facts (X : Str)
    (h : X.all (fun c => !(isDelim c) && (!(c == '"') && !(c == '\''))) = true) :
    (∀ c ∈ X, isDelim c = false) ∧ ' ' ∉ X ∧ '\n' ∉ X := by
  have hall := List.all_eq_true.1 h
  have hnd : ∀ c ∈ X, isDelim c = false := by
    intro c hc
    have := hall c hc
    simp only [Bool.and_eq_true, Bool.not_eq_true'] at this
    exact this.1
  refine ⟨hnd, ?_, ?_⟩
  · exact not_mem_of_all (fun c => !(isDelim c)) _ (fun c hc => by simp [hnd c hc]) ' ' (by decide)
  · exact not_mem_of_all (fun c => !(isDelim c)) _ (fun c hc => by simp [hnd c hc]) '\n' (by decide)

theorem trackType_rs : ∀ dt ∈ ValidTrackModes.map Prod.fst,
    ReadStringM dt = some (dt, []) := by decide

theorem trackType_chars : ∀ dt ∈ ValidTrackModes.map Prod.fst,
    dt.all (fun c => !(isDelim c) && (!(c == '"') && !(c == '\''))) = true := by decide

theorem trackType_ne_nil : ∀ dt ∈ ValidTrackModes.map Prod.fst, dt ≠ [] := by decide

theorem fileType_rs : ∀ ft ∈ ValidFileTypes, ReadStringM ft = some (ft, []) := by decide

theorem fileType_chars : ∀ ft ∈ ValidFileTypes,
    ft.all (fun c => !(isDelim c) && (!(c == '"') && !(c == '\''))) = true := by decide

theorem fileType_ne_nil : ∀ ft ∈ ValidFileTypes, ft ≠ [] := by decide

/-! ## linesOf over emitted lines -/

theorem linesOf_line_append (b rest : Str) (h : '\n' ∉ b) :
    linesOf (b ++ '\n' :: rest) = (b ++ ['\n']) :: linesOf rest := by
  induction b with
  | nil => simp [linesOf]
  | cons c cs ih =>
    have hc : ¬ c = '\n' := fun he => h (he ▸ List.mem_cons_self c cs)
    simp only [List.cons_append, linesOf, if_neg hc, List.append_eq]
    rw [ih (fun hm => h (List.mem_cons_of_mem _ hm))]

theorem linesOf_flatten (L : List Str) (h : ∀ l ∈ L, ∃ b, l = b ++ ['\n'] ∧ '\n' ∉ b) :
    linesOf L.flatten = L := by
  induction L with
  | nil => rfl
  | cons l ls ih =>
    obtain ⟨b, rfl, hb⟩ := h l (List.mem_cons_self l ls)
    simp only [List.flatten_cons]
    rw [show (b ++ ['\n']) ++ ls.flatten = b ++ '\n' :: ls.flatten by simp]
    rw [linesOf_line_append b _ hb]
    rw [ih (fun l2 hl => h l2 (List.mem_cons_of_mem _ hl))]

end Cue

namespace Cue

unseal readFlags readFileLoop readTracks uintDigits

/-! ## The master line lemma: trimming and reading the command off an
emitted line -/

theorem getLast_append_cons (A : Str) (c : Char) (B : Str) (hB : B ≠ []) :
    (A ++ c :: B).getLast? = B.getLast? := by
  rw [show A ++ c :: B = (A ++ [c]) ++ B by simp]
  exact List.getLast?_append_of_ne_nil _ hB

/-- An emitted line `ind ++ cmd ++ ' ' ++ payload ++ '\n'` (all-delimiter
indentation, safe command token, payload not ending in a delimiter) trims
to its core and ReadString returns the command and the raw payload. -/
theorem line_cmd_payload (ind cmdT P : Str)
    (hind : ∀ c ∈ ind, isDelim c = true)
    (hcmd : cmdT.all (fun c => !(isDelim c) && (!(c == '"') && !(c == '\''))) = true)
    (hcn : cmdT ≠ [])
    (hPlast : ∀ c, P.getLast? = some c → isDelim c = false)
    (hPn : P ≠ []) :
    ReadStringM (trim (ind ++ ((cmdT ++ ' ' :: P) ++ ['\n']))) = some (cmdT, P) := by
  obtain ⟨c0, cs, rfl⟩ := List.exists_cons_of_ne_nil hcn
  obtain ⟨hnd, hsp, -⟩ := safe_chars_facts _ hcmd
  have h0 := List.all_eq_true.1 hcmd c0 (List.mem_cons_self _ _)
  simp only [Bool.and_eq_true, Bool.not_eq_true'] at h0
  have hq1 : c0 ≠ '"' := by
    intro he
    rw [he] at h0
    simp at h0
  have hq2 : c0 ≠ '\'' := by
    intro he
    rw [he] at h0
    simp at h0
  have htrim : trim (ind ++ (((c0 :: cs) ++ ' ' :: P) ++ ['\n'])) = (c0 :: cs) ++ ' ' :: P := by
    refine trim_line ind ((c0 :: cs) ++ ' ' :: P) hind ?_ ?_
    · intro c cs2 he
      rw [List.cons_append] at he
      injection he with he1 _
      rw [← he1]
      exact hnd c0 (List.mem_cons_self _ _)
    · intro c hc
      rw [getLast_append_cons _ _ _ hPn] at hc
      exact hPlast c hc
  rw [htrim]
  exact readString_bare_sep c0 cs P (hnd c0 (List.mem_cons_self _ _)) hq1 hq2 hsp

/-! ## Indentation-prefix lemmas -/

theorem isPrefixOf_self_append (p X : Str) : p.isPrefixOf (p ++ X) = true := by
  rw [List.isPrefixOf_iff_prefix]
  exact List.prefix_append p X

theorem prefix4_of_prefix2_false (l : Str) (h : (("  ").toList).isPrefixOf l = false) :
    (("    ").toList).isPrefixOf l = false := by
  cases h4 : (("    ").toList).isPrefixOf l with
  | false => rfl
  | true =>
    exfalso
    rw [List.isPrefixOf_iff_prefix] at h4
    have h2 : (("  ").toList).isPrefixOf l = true := by
      rw [List.isPrefixOf_iff_prefix]
      exact List.IsPrefix.trans ⟨("  ").toList, rfl⟩ h4
    rw [h2] at h
    cases h

theorem prefix2_FILE_false (X : Str) :
    (("  ").toList).isPrefixOf (("FILE ").toList ++ X) = false := by
  rw [show ("  ").toList = ' ' :: [' '] from rfl,
    show ("FILE ").toList = 'F' :: ("ILE ").toList from rfl]
  simp [List.isPrefixOf]

theorem prefix4_TRACK_false (X : Str) :
    (("    ").toList).isPrefixOf (("  TRACK ").toList ++ X) = false := by
  rw [show ("    ").toList = ' ' :: ' ' :: ' ' :: [' '] from rfl,
    show ("  TRACK ").toList = ' ' :: ' ' :: 'T' :: ("RACK ").toList from rfl]
  simp [List.isPrefixOf]

theorem prefix2_TRACK_true (X : Str) :
    (("  ").toList).isPrefixOf (("  TRACK ").toList ++ X) = true := by
  rw [show ("  TRACK ").toList ++ X = ("  ").toList ++ (("TRACK ").toList ++ X) by simp]
  exact isPrefixOf_self_append _ _

end Cue

namespace Cue

unseal readFlags readFileLoop readTracks uintDigits

/-! ## Unpacking the well-formedness predicates -/

theorem goodTrackB_facts (t : Track) (hg : goodTrackB t = true) :
    1 ≤ t.trackNumber ∧ t.trackNumber ≤ 99 ∧
    t.trackDataType ∈ ValidTrackModes.map Prod.fst ∧
    t.flags &&& 30 = t.flags ∧
    (t.isrc = [] ∨ (ValidateISRC t.isrc).isNone = true) ∧
    goodStrB t.title = true ∧ goodStrB t.performer = true ∧ goodStrB t.songWriter = true ∧
    goodStrB t.composer = true ∧ goodStrB t.arranger = true ∧ goodStrB t.message = true ∧
    t.pregap < 450000 ∧ t.postgap < 450000 ∧ (∀ ix ∈ t.index, goodIndexB ix = true) := by
  simp only [goodTrackB, Bool.and_eq_true] at hg
  obtain ⟨h1, h2, h3, h4, h5, h6, h7, h8, h9, h10, h11, h12, h13, h14⟩ := hg
  rw [Bool.or_eq_true] at h5
  refine ⟨of_decide_eq_true h1, of_decide_eq_true h2, of_decide_eq_true h3, eq_of_beq h4,
    ?_, h6, h7, h8, h9, h10, h11, of_decide_eq_true h12, of_decide_eq_true h13,
    List.all_eq_true.1 h14⟩
  rcases h5 with h5 | h5
  · exact .inl (eq_of_beq h5)
  · exact .inr h5

theorem goodFileB_facts (f : File) (hg : goodFileB f = true) :
    f.fileName ≠ [] ∧ goodStrB f.fileName = true ∧ f.fileType ∈ ValidFileTypes ∧
    ∀ t ∈ f.tracks, goodTrackB t = true := by
  simp only [goodFileB, Bool.and_eq_true] at hg
  obtain ⟨h1, h2, h3, h4⟩ := hg
  refine ⟨?_, h2, of_decide_eq_true h3, List.all_eq_true.1 h4⟩
  intro he
  rw [Bool.not_eq_true'] at h1
  rw [he] at h1
  simp at h1

theorem CueWF_facts (c : Cuesheet) (h : CueWF c = true) :
    (∀ r ∈ c.rem, goodRemB r = true) ∧
    (c.catalog = [] ∨ (ValidateCatalog c.catalog).isNone = true) ∧
    goodStrB c.cdTextFile = true ∧ goodStrB c.title = true ∧ goodStrB c.performer = true ∧
    goodStrB c.songWriter = true ∧ goodStrB c.composer = true ∧ goodStrB c.arranger = true ∧
    goodStrB c.message = true ∧ goodStrB c.genre = true ∧ goodStrB c.discId = true ∧
    goodStrB c.upcEan = true ∧ c.pregap < 450000 ∧ c.postgap < 450000 ∧
    ∀ f ∈ c.file, goodFileB f = true := by
  simp only [CueWF, Bool.and_eq_true] at h
  obtain ⟨h1, h2, h3, h4, h5, h6, h7, h8, h9, h10, h11, h12, h13, h14, h15⟩ := h
  rw [Bool.or_eq_true] at h2
  refine ⟨List.all_eq_true.1 h1, ?_, h3, h4, h5, h6, h7, h8, h9, h10, h11, h12,
    of_decide_eq_true h13, of_decide_eq_true h14, List.all_eq_true.1 h15⟩
  rcases h2 with h2 | h2
  · exact .inl (eq_of_beq h2)
  · exact .inr h2

end Cue

namespace Cue

unseal readFlags readFileLoop readTracks uintDigits

/-! ## Shape of the emitted lines: each ends in exactly one newline -/

theorem mem_if_single {α : Type} (l x : α) (cond : Prop) [Decidable cond]
    (h : l ∈ (if cond then [x] else [])) : l = x ∧ cond := by
  split at h
  · rename_i hc
    exact ⟨by simpa using h, hc⟩
  · cases h

theorem shape_lit_payload (lit P : Str) (hlit : '\n' ∉ lit) (hP : '\n' ∉ P) :
    ∃ b, lit ++ P ++ eol = b ++ ['\n'] ∧ '\n' ∉ b := by
  refine ⟨lit ++ P, by simp [eol], ?_⟩
  intro hm
  rcases List.mem_append.1 hm with hm | hm
  · exact hlit hm
  · exact hP hm

theorem shape_lit_two (lit P Q : Str) (hlit : '\n' ∉ lit) (hP : '\n' ∉ P) (hQ : '\n' ∉ Q) :
    ∃ b, lit ++ P ++ ' ' :: (Q ++ eol) = b ++ ['\n'] ∧ '\n' ∉ b := by
  refine ⟨lit ++ P ++ ' ' :: Q, by simp [eol], ?_⟩
  intro hm
  rcases List.mem_append.1 hm with hm | hm
  · rcases List.mem_append.1 hm with hm | hm
    · exact hlit hm
    · exact hP hm
  · rcases List.mem_cons.1 hm with he | hm
    · cases he
    · exact hQ hm

theorem flags_shape : ∀ fl, fl < 32 →
    flagsLine fl = (flagsLine fl).dropLast ++ ['\n'] ∧ '\n' ∉ (flagsLine fl).dropLast := by
  decide

theorem noNL_of_goodRem (r : Str) (h : goodRemB r = true) : '\n' ∉ r := by
  simp only [goodRemB, Bool.and_eq_true, noNL, List.all_eq_true] at h
  intro hm
  have := h.1 _ hm
  simp at this

theorem noNL_of_digits (s : Str) (h : ∀ c ∈ s, isDigitCh c = true) : '\n' ∉ s :=
  not_mem_of_all (fun c => isDigitCh c) s h '\n' (by decide)

theorem noNL_of_alnum (s : Str) (h : ∀ c ∈ s, isAlphaNumC c = true) : '\n' ∉ s :=
  not_mem_of_all (fun c => isAlphaNumC c) s h '\n' (by decide)

theorem noNL_pad2 (n : Nat) (h : n < 100) : '\n' ∉ leftPad (uintDigits n) ['0'] 2 :=
  noNL_of_digits _ (pad2_all_digits n h)

theorem trackLines_shape (t : Track) (hg : goodTrackB t = true) :
    ∀ l ∈ trackLines t, ∃ b, l = b ++ ['\n'] ∧ '\n' ∉ b := by
  obtain ⟨-, h2, h3, h4, h5, h6, h7, h8, h9, h10, h11, h12, h13, h14⟩ := goodTrackB_facts t hg
  have hfl32 : t.flags < 32 := lt_of_le_of_lt (h4 ▸ Nat.and_le_right) (by norm_num)
  have hTN : t.trackNumber < 100 := by omega
  obtain ⟨-, -, hdtn⟩ := safe_chars_facts _ (trackType_chars _ h3)
  intro l hl
  simp only [trackLines, List.mem_append, List.mem_cons, List.not_mem_nil, or_false] at hl
  rcases hl with ((((((((((hl | hl) | hl) | hl) | hl) | hl) | hl) | hl) | hl) | hl) | hl) | hl
  · subst hl
    exact shape_lit_two _ _ _ (by decide) (noNL_pad2 _ hTN) hdtn
  · obtain ⟨rfl, -⟩ := mem_if_single _ _ _ hl
    obtain ⟨he, hnn⟩ := flags_shape t.flags hfl32
    exact ⟨(flagsLine t.flags).dropLast, he, hnn⟩
  · obtain ⟨rfl, hne⟩ := mem_if_single _ _ _ hl
    rcases h5 with h5 | h5
    · exact absurd h5 hne
    · exact shape_lit_payload _ _ (by decide) (noNL_of_alnum _ (isrc_facts _ h5).1)
  · obtain ⟨rfl, -⟩ := mem_if_single _ _ _ hl
    exact shape_lit_payload _ _ (by decide) (formatString_noNL _ h6)
  · obtain ⟨rfl, -⟩ := mem_if_single _ _ _ hl
    exact shape_lit_payload _ _ (by decide) (formatString_noNL _ h7)
  · obtain ⟨rfl, -⟩ := mem_if_single _ _ _ hl
    exact shape_lit_payload _ _ (by decide) (formatString_noNL _ h8)
  · obtain ⟨rfl, -⟩ := mem_if_single _ _ _ hl
    exact shape_lit_payload _ _ (by decide) (formatString_noNL _ h9)
  · obtain ⟨rfl, -⟩ := mem_if_single _ _ _ hl
    exact shape_lit_payload _ _ (by decide) (formatString_noNL _ h10)
  · obtain ⟨rfl, -⟩ := mem_if_single _ _ _ hl
    exact shape_lit_payload _ _ (by decide) (formatString_noNL _ h11)
  · obtain ⟨rfl, -⟩ := mem_if_single _ _ _ hl
    exact shape_lit_payload _ _ (by decide) (fmtFrame_noNL _ h12)
  · obtain ⟨rfl, -⟩ := mem_if_single _ _ _ hl
    exact shape_lit_payload _ _ (by decide) (fmtFrame_noNL _ h13)
  · obtain ⟨ix, hix, rfl⟩ := List.mem_map.1 hl
    have hgix := h14 ix hix
    simp only [goodIndexB, Bool.and_eq_true, decide_eq_true_eq] at hgix
    exact shape_lit_two _ _ _ (by decide) (noNL_pad2 _ (by omega)) (fmtFrame_noNL _ hgix.2)

theorem fileLines_shape (f : File) (hg : goodFileB f = true) :
    ∀ l ∈ fileLines f, ∃ b, l = b ++ ['\n'] ∧ '\n' ∉ b := by
  obtain ⟨-, h2, h3, h4⟩ := goodFileB_facts f hg
  obtain ⟨-, -, hftn⟩ := safe_chars_facts _ (fileType_chars _ h3)
  intro l hl
  simp only [fileLines, List.mem_cons] at hl
  rcases hl with rfl | hl
  · exact shape_lit_two _ _ _ (by decide) (formatString_noNL _ h2) hftn
  · rw [List.mem_flatten] at hl
    obtain ⟨ls, hls, hlm⟩ := hl
    obtain ⟨t, ht, rfl⟩ := List.mem_map.1 hls
    exact trackLines_shape t (h4 t ht) l hlm

theorem sheetLines_shape (c : Cuesheet) (h : CueWF c = true) :
    ∀ l ∈ sheetLines c, ∃ b, l = b ++ ['\n'] ∧ '\n' ∉ b := by
  obtain ⟨h1, h2, h3, h4, h5, h6, h7, h8, h9, h10, h11, h12, h13, h14, h15⟩ := CueWF_facts c h
  intro l hl
  simp only [sheetLines, List.mem_append] at hl
  rcases hl with (((((((((((((hl | hl) | hl) | hl) | hl) | hl) | hl) | hl) | hl) | hl) | hl)
    | hl) | hl) | hl) | hl
  · obtain ⟨r, hr, rfl⟩ := List.mem_map.1 hl
    exact shape_lit_payload _ _ (by decide) (noNL_of_goodRem r (h1 r hr))
  · obtain ⟨rfl, hne⟩ := mem_if_single _ _ _ hl
    rcases h2 with h2 | h2
    · exact absurd h2 hne
    · exact shape_lit_payload _ _ (by decide) (noNL_of_digits _ (catalog_facts _ h2).1)
  · obtain ⟨rfl, -⟩ := mem_if_single _ _ _ hl
    exact shape_lit_payload _ _ (by decide) (formatString_noNL _ h3)
  · obtain ⟨rfl, -⟩ := mem_if_single _ _ _ hl
    exact shape_lit_payload _ _ (by decide) (formatString_noNL _ h4)
  · obtain ⟨rfl, -⟩ := mem_if_single _ _ _ hl
    exact shape_lit_payload _ _ (by decide) (formatString_noNL _ h5)
  · obtain ⟨rfl, -⟩ := mem_if_single _ _ _ hl
    exact shape_lit_payload _ _ (by decide) (formatString_noNL _ h6)
  · obtain ⟨rfl, -⟩ := mem_if_single _ _ _ hl
    exact shape_lit_payload _ _ (by decide) (formatString_noNL _ h7)
  · obtain ⟨rfl, -⟩ := mem_if_single _ _ _ hl
    exact shape_lit_payload _ _ (by decide) (formatString_noNL _ h8)
  · obtain ⟨rfl, -⟩ := mem_if_single _ _ _ hl
    exact shape_lit_payload _ _ (by decide) (formatString_noNL _ h9)
  · obtain ⟨rfl, -⟩ := mem_if_single _ _ _ hl
    exact shape_lit_payload _ _ (by decide) (formatString_noNL _ h10)
  · obtain ⟨rfl, -⟩ := mem_if_single _ _ _ hl
    exact shape_lit_payload _ _ (by decide) (formatString_noNL _ h11)
  · obtain ⟨rfl, -⟩ := mem_if_single _ _ _ hl
    exact shape_lit_payload _ _ (by decide) (formatString_noNL _ h12)
  · obtain ⟨rfl, -⟩ := mem_if_single _ _ _ hl
    exact shape_lit_payload _ _ (by decide) (fmtFrame_noNL _ h13)
  · obtain ⟨rfl, -⟩ := mem_if_single _ _ _ hl
    exact shape_lit_payload _ _ (by decide) (fmtFrame_noNL _ h14)
  · rw [List.mem_flatten] at hl
    obtain ⟨ls, hls, hlm⟩ := hl
    obtain ⟨f, hf, rfl⟩ := List.mem_map.1 hls
    exact fileLines_shape f (h15 f hf) l hlm

end Cue

namespace Cue

unseal readFlags readFileLoop readTracks uintDigits

/-! ## Evaluating sheetStep and trackStep at each concrete command -/

theorem sheetStep_REM (acc : Cuesheet) (l : Str) :
    sheetStep acc (("REM").toList) l = .ok { acc with rem := acc.rem ++ [l] } := rfl

theorem sheetStep_CATALOG (acc : Cuesheet) (l : Str) :
    sheetStep acc (("CATALOG").toList) l = .ok { acc with catalog := l } := rfl

theorem sheetStep_CDTEXTFILE (acc : Cuesheet) (P v r : Str) (h : ReadStringM P = some (v, r)) :
    sheetStep acc (("CDTEXTFILE").toList) P = .ok { acc with cdTextFile := v } := by
  have he : sheetStep acc (("CDTEXTFILE").toList) P
      = (match ReadStringM P with
         | none => .error .panicErr
         | some (v, _) => .ok { acc with cdTextFile := v }) := rfl
  simp only [he, h]

theorem sheetStep_TITLE (acc : Cuesheet) (P v r : Str) (h : ReadStringM P = some (v, r)) :
    sheetStep acc (("TITLE").toList) P = .ok { acc with title := v } := by
  have he : sheetStep acc (("TITLE").toList) P
      = (match ReadStringM P with
         | none => .error .panicErr
         | some (v, _) => .ok { acc with title := v }) := rfl
  simp only [he, h]

theorem sheetStep_PERFORMER (acc : Cuesheet) (P v r : Str) (h : ReadStringM P = some (v, r)) :
    sheetStep acc (("PERFORMER").toList) P = .ok { acc with performer := v } := by
  have he : sheetStep acc (("PERFORMER").toList) P
      = (match ReadStringM P with
         | none => .error .panicErr
         | some (v, _) => .ok { acc with performer := v }) := rfl
  simp only [he, h]

theorem sheetStep_SONGWRITER (acc : Cuesheet) (P v r : Str) (h : ReadStringM P = some (v, r)) :
    sheetStep acc (("SONGWRITER").toList) P = .ok { acc with songWriter := v } := by
  have he : sheetStep acc (("SONGWRITER").toList) P
      = (match ReadStringM P with
         | none => .error .panicErr
         | some (v, _) => .ok { acc with songWriter := v }) := rfl
  simp only [he, h]

theorem sheetStep_COMPOSER (acc : Cuesheet) (P v r : Str) (h : ReadStringM P = some (v, r)) :
    sheetStep acc (("COMPOSER").toList) P = .ok { acc with composer := v } := by
  have he : sheetStep acc (("COMPOSER").toList) P
      = (match ReadStringM P with
         | none => .error .panicErr
         | some (v, _) => .ok { acc with composer := v }) := rfl
  simp only [he, h]

theorem sheetStep_ARRANGER (acc : Cuesheet) (P v r : Str) (h : ReadStringM P = some (v, r)) :
    sheetStep acc (("ARRANGER").toList) P = .ok { acc with arranger := v } := by
  have he : sheetStep acc (("ARRANGER").toList) P
      = (match ReadStringM P with
         | none => .error .panicErr
         | some (v, _) => .ok { acc with arranger := v }) := rfl
  simp only [he, h]

theorem sheetStep_MESSAGE (acc : Cuesheet) (P v r : Str) (h : ReadStringM P = some (v, r)) :
    sheetStep acc (("MESSAGE").toList) P = .ok { acc with message := v } := by
  have he : sheetStep acc (("MESSAGE").toList) P
      = (match ReadStringM P with
         | none => .error .panicErr
         | some (v, _) => .ok { acc with message := v }) := rfl
  simp only [he, h]

theorem sheetStep_GENRE (acc : Cuesheet) (P v r : Str) (h : ReadStringM P = some (v, r)) :
    sheetStep acc (("GENRE").toList) P = .ok { acc with genre := v } := by
  have he : sheetStep acc (("GENRE").toList) P
      = (match ReadStringM P with
         | none => .error .panicErr
         | some (v, _) => .ok { acc with genre := v }) := rfl
  simp only [he, h]

theorem sheetStep_DISCID (acc : Cuesheet) (P v r : Str) (h : ReadStringM P = some (v, r)) :
    sheetStep acc (("DISC_ID").toList) P = .ok { acc with discId := v } := by
  have he : sheetStep acc (("DISC_ID").toList) P
      = (match ReadStringM P with
         | none => .error .panicErr
         | some (v, _) => .ok { acc with discId := v }) := rfl
  simp only [he, h]

theorem sheetStep_UPCEAN (acc : Cuesheet) (P v r : Str) (h : ReadStringM P = some (v, r)) :
    sheetStep acc (("UPC_EAN").toList) P = .ok { acc with upcEan := v } := by
  have he : sheetStep acc (("UPC_EAN").toList) P
      = (match ReadStringM P with
         | none => .error .panicErr
         | some (v, _) => .ok { acc with upcEan := v }) := rfl
  simp only [he, h]

theorem sheetStep_PREGAP (acc : Cuesheet) (P : Str) (f : Nat) (r : Str)
    (h : ReadFrame P = .ok (f, r)) :
    sheetStep acc (("PREGAP").toList) P = .ok { acc with pregap := f } := by
  have he : sheetStep acc (("PREGAP").toList) P
      = (match ReadFrame P with
         | .error e => .error e
         | .ok (f, _) => .ok { acc with pregap := f }) := rfl
  simp only [he, h]

theorem sheetStep_POSTGAP (acc : Cuesheet) (P : Str) (f : Nat) (r : Str)
    (h : ReadFrame P = .ok (f, r)) :
    sheetStep acc (("POSTGAP").toList) P = .ok { acc with postgap := f } := by
  have he : sheetStep acc (("POSTGAP").toList) P
      = (match ReadFrame P with
         | .error e => .error e
         | .ok (f, _) => .ok { acc with postgap := f }) := rfl
  simp only [he, h]

theorem trackStep_FLAGS (t : Track) (P : Str) (fl : Nat) (h : readFlags 0 P = .ok fl) :
    trackStep t (("FLAGS").toList) P = .ok (some { t with flags := fl }) := by
  have he : trackStep t (("FLAGS").toList) P
      = (match readFlags 0 P with
         | .error e => .error e
         | .ok fl => .ok (some { t with flags := fl })) := rfl
  simp only [he, h]

theorem trackStep_ISRC (t : Track) (l : Str) :
    trackStep t (("ISRC").toList) l = .ok (some { t with isrc := l }) := rfl

theorem trackStep_TITLE (t : Track) (P v r : Str) (h : ReadStringM P = some (v, r)) :
    trackStep t (("TITLE").toList) P = .ok (some { t with title := v }) := by
  have he : trackStep t (("TITLE").toList) P
      = (match ReadStringM P with
         | none => .error .panicErr
         | some (v, _) => .ok (some { t with title := v })) := rfl
  simp only [he, h]

theorem trackStep_PERFORMER (t : Track) (P v r : Str) (h : ReadStringM P = some (v, r)) :
    trackStep t (("PERFORMER").toList) P = .ok (some { t with performer := v }) := by
  have he : trackStep t (("PERFORMER").toList) P
      = (match ReadStringM P with
         | none => .error .panicErr
         | some (v, _) => .ok (some { t with performer := v })) := rfl
  simp only [he, h]

theorem trackStep_SONGWRITER (t : Track) (P v r : Str) (h : ReadStringM P = some (v, r)) :
    trackStep t (("SONGWRITER").toList) P = .ok (some { t with songWriter := v }) := by
  have he : trackStep t (("SONGWRITER").toList) P
      = (match ReadStringM P with
         | none => .error .panicErr
         | some (v, _) => .ok (some { t with songWriter := v })) := rfl
  simp only [he, h]

theorem trackStep_COMPOSER (t : Track) (P v r : Str) (h : ReadStringM P = some (v, r)) :
    trackStep t (("COMPOSER").toList) P = .ok (some { t with composer := v }) := by
  have he : trackStep t (("COMPOSER").toList) P
      = (match ReadStringM P with
         | none => .error .panicErr
         | some (v, _) => .ok (some { t with composer := v })) := rfl
  simp only [he, h]

theorem trackStep_ARRANGER (t : Track) (P v r : Str) (h : ReadStringM P = some (v, r)) :
    trackStep t (("ARRANGER").toList) P = .ok (some { t with arranger := v }) := by
  have he : trackStep t (("ARRANGER").toList) P
      = (match ReadStringM P with
         | none => .error .panicErr
         | some (v, _) => .ok (some { t with arranger := v })) := rfl
  simp only [he, h]

theorem trackStep_MESSAGE (t : Track) (P v r : Str) (h : ReadStringM P = some (v, r)) :
    trackStep t (("MESSAGE").toList) P = .ok (some { t with message := v }) := by
  have he : trackStep t (("MESSAGE").toList) P
      = (match ReadStringM P with
         | none => .error .panicErr
         | some (v, _) => .ok (some { t with message := v })) := rfl
  simp only [he, h]

theorem trackStep_PREGAP (t : Track) (P : Str) (f : Nat) (r : Str)
    (h : ReadFrame P = .ok (f, r)) :
    trackStep t (("PREGAP").toList) P = .ok (some { t with pregap := f }) := by
  have he : trackStep t (("PREGAP").toList) P
      = (match ReadFrame P with
         | .error e => .error e
         | .ok (f, _) => .ok (some { t with pregap := f })) := rfl
  simp only [he, h]

theorem trackStep_POSTGAP (t : Track) (P : Str) (f : Nat) (r : Str)
    (h : ReadFrame P = .ok (f, r)) :
    trackStep t (("POSTGAP").toList) P = .ok (some { t with postgap := f }) := by
  have he : trackStep t (("POSTGAP").toList) P
      = (match ReadFrame P with
         | .error e => .error e
         | .ok (f, _) => .ok (some { t with postgap := f })) := rfl
  simp only [he, h]

theorem trackStep_INDEX (t : Track) (P : Str) (num : Nat) (l2 : Str) (f : Nat) (r : Str)
    (h1 : ReadUintE P = .ok (num, l2)) (h2 : ReadFrame l2 = .ok (f, r)) :
    trackStep t (("INDEX").toList) P = .ok (some { t with index := t.index ++ [⟨num, f⟩] }) := by
  have he : trackStep t (("INDEX").toList) P
      = (match ReadUintE P with
         | .error e => .error e
         | .ok (num, l2) =>
           match ReadFrame l2 with
           | .error e => .error e
           | .ok (f, _) => .ok (some { t with index := t.index ++ [⟨num, f⟩] })) := rfl
  simp only [he, h1, h2]

end Cue

namespace Cue

unseal readFlags readFileLoop readTracks uintDigits

/-! ## One-step and stop lemmas for the three reading loops -/

theorem readTrack_cons (t : Track) (line : Str) (rest : List Str) (cmd l2 : Str)
    (hpre : (("    ").toList).isPrefixOf line = true)
    (hrs : ReadStringM (trim line) = some (cmd, l2))
    (t2 : Track) (hstep : trackStep t cmd l2 = .ok (some t2)) :
    readTrack t (line :: rest) = readTrack t2 rest := by
  simp only [readTrack, hpre, if_true, hrs, hstep]

theorem readTrack_stop (t : Track) (rest : List Str)
    (hstop : ∀ l ls, rest = l :: ls → (("    ").toList).isPrefixOf l = false) :
    readTrack t rest = .ok (t, rest) := by
  cases rest with
  | nil => simp [readTrack]
  | cons l ls =>
    have h := hstop l ls rfl
    simp only [readTrack]
    rw [h]
    simp

theorem readTracks_stop (rest : List Str)
    (hstop : ∀ l ls, rest = l :: ls → (("  ").toList).isPrefixOf l = false) :
    readTracks rest = .ok ([], rest) := by
  cases rest with
  | nil => simp [readTracks]
  | cons l ls =>
    have h := hstop l ls rfl
    simp only [readTracks]
    rw [h]
    simp

theorem readTracks_track (line : Str) (rest : List Str) (l2 l3 dtv l4 : Str) (num : Nat)
    (hpre : (("  ").toList).isPrefixOf line = true)
    (hrs : ReadStringM (trim line) = some (("TRACK").toList, l2))
    (hu : ReadUintE l2 = .ok (num, l3))
    (hdt : ReadStringM l3 = some (dtv, l4))
    (tr : Track) (rest2 : List Str)
    (hrt : readTrack { trackNumber := num, trackDataType := dtv, flags := defTrack.flags, isrc := defTrack.isrc, title := defTrack.title, performer := defTrack.performer, songWriter := defTrack.songWriter, composer := defTrack.composer, arranger := defTrack.arranger, message := defTrack.message, pregap := defTrack.pregap, postgap := defTrack.postgap, index := defTrack.index } rest
      = .ok (tr, rest2))
    (trs : List Track) (rest3 : List Str)
    (hrts : readTracks rest2 = .ok (trs, rest3)) :
    readTracks (line :: rest) = .ok (tr :: trs, rest3) := by
  simp only [readTracks, hpre, if_true, hrs, if_pos rfl, hu, hdt]
  split
  · rename_i e he
    rw [hrt] at he
    simp at he
  · rename_i tr2 rest22 he
    rw [hrt] at he
    simp only [Except.ok.injEq, Prod.mk.injEq] at he
    obtain ⟨h1, h2⟩ := he
    subst h1
    subst h2
    simp only [hrts]

theorem readFileLoop_cons (acc : Cuesheet) (line : Str) (rest : List Str) (cmd l2 : Str)
    (hrs : ReadStringM (trim line) = some (cmd, l2))
    (hne : ¬ cmd = ("FILE").toList) (c2 : Cuesheet) (hstep : sheetStep acc cmd l2 = .ok c2) :
    readFileLoop acc (line :: rest) = readFileLoop c2 rest := by
  simp only [readFileLoop, hrs, if_neg hne, hstep]

theorem readFileLoop_file (acc : Cuesheet) (line : Str) (rest : List Str) (l2 : Str)
    (hrs : ReadStringM (trim line) = some (("FILE").toList, l2))
    (fname l3 ftype l4 : Str)
    (hf : ReadStringM l2 = some (fname, l3))
    (ht : ReadStringM l3 = some (ftype, l4))
    (trs : List Track) (rest2 : List Str)
    (hrts : readTracks rest = .ok (trs, rest2)) :
    readFileLoop acc (line :: rest)
      = readFileLoop { acc with file := acc.file ++ [⟨fname, ftype, trs⟩] } rest2 := by
  simp only [readFileLoop, hrs, if_pos rfl, hf, ht, if_true]
  split
  · rename_i e he
    rw [hrts] at he
    simp at he
  · rename_i trs2 rest22 he
    rw [hrts] at he
    simp only [Except.ok.injEq, Prod.mk.injEq] at he
    obtain ⟨h1, h2⟩ := he
    subst h1
    subst h2
    rfl

/-! ## The FLAGS line round trip, by bounded evaluation -/

theorem flags_parse : ∀ fl, fl < 32 →
    (ReadStringM (trim (flagsLine fl))).map (fun p => (p.1, readFlags 0 p.2))
      = some ((("FLAGS").toList, Except.ok (fl &&& 30))) := by
  decide

end Cue

namespace Cue

unseal readFlags readFileLoop readTracks uintDigits

/-! ## Parsing the emitted lines -/

theorem parse_hdr_line (cmdT P : Str)
    (hcmd : cmdT.all (fun c => !(isDelim c) && (!(c == '"') && !(c == '\''))) = true)
    (hcn : cmdT ≠ [])
    (hPlast : ∀ c, P.getLast? = some c → isDelim c = false) (hPn : P ≠ []) :
    ReadStringM (trim ((cmdT ++ [' ']) ++ P ++ eol)) = some (cmdT, P) := by
  have h1 : (cmdT ++ [' ']) ++ P ++ eol = [] ++ ((cmdT ++ ' ' :: P) ++ ['\n']) := by
    simp [eol]
  rw [h1]
  exact line_cmd_payload [] cmdT P (by intro c hc; cases hc) hcmd hcn hPlast hPn

theorem parse_ind_line (ind cmdT P : Str) (hind : ∀ c ∈ ind, isDelim c = true)
    (hcmd : cmdT.all (fun c => !(isDelim c) && (!(c == '"') && !(c == '\''))) = true)
    (hcn : cmdT ≠ [])
    (hPlast : ∀ c, P.getLast? = some c → isDelim c = false) (hPn : P ≠ []) :
    ReadStringM (trim ((ind ++ (cmdT ++ [' '])) ++ P ++ eol)) = some (cmdT, P) := by
  have h1 : (ind ++ (cmdT ++ [' '])) ++ P ++ eol = ind ++ ((cmdT ++ ' ' :: P) ++ ['\n']) := by
    simp [eol]
  rw [h1]
  exact line_cmd_payload ind cmdT P hind hcmd hcn hPlast hPn

theorem parse_hdr_fmt (cmdT s : Str)
    (hcmd : cmdT.all (fun c => !(isDelim c) && (!(c == '"') && !(c == '\''))) = true)
    (hcn : cmdT ≠ []) (hg : goodStrB s = true) (hn : s ≠ []) :
    ReadStringM (trim ((cmdT ++ [' ']) ++ FormatString s ++ eol)) = some (cmdT, FormatString s) :=
  parse_hdr_line cmdT (FormatString s) hcmd hcn (formatString_last s hg hn)
    (formatString_ne_nil s hn)

/-! ## Header segment lemmas: one per serialized Cuesheet field -/

theorem hdrSeg_rems (acc : Cuesheet) (rems : List Str) (rest : List Str)
    (h : ∀ r ∈ rems, goodRemB r = true) :
    readFileLoop acc (List.map (fun r => ("REM ").toList ++ r ++ eol) rems ++ rest)
      = readFileLoop { acc with rem := acc.rem ++ rems } rest := by
  induction rems generalizing acc with
  | nil =>
    simp only [List.map_nil, List.nil_append, List.append_nil]
  | cons r rs ih =>
    have hr := h r (List.mem_cons_self _ _)
    have hrs : ReadStringM (trim (("REM ").toList ++ r ++ eol)) = some (("REM").toList, r) := by
      by_cases hrn : r = []
      · subst hrn
        decide
      · rw [show ("REM ").toList = ("REM").toList ++ [' '] from rfl]
        refine parse_hdr_line _ r (by decide) (by decide) ?_ hrn
        intro c hc
        simp only [goodRemB, Bool.and_eq_true] at hr
        have h2 := hr.2
        rw [hc] at h2
        simp only [Bool.not_eq_true'] at h2
        exact h2
    rw [List.map_cons, List.cons_append]
    rw [readFileLoop_cons acc _ _ _ _ hrs (by decide) _ (sheetStep_REM acc r)]
    rw [ih _ (fun r2 h2 => h r2 (List.mem_cons_of_mem _ h2))]
    rw [List.append_assoc, List.singleton_append]

theorem hdrSeg_catalog (acc : Cuesheet) (s : Str) (rest : List Str)
    (hv : s = [] ∨ (ValidateCatalog s).isNone = true) (hacc : acc.catalog = []) :
    readFileLoop acc ((if s ≠ [] then [("CATALOG ").toList ++ s ++ eol] else []) ++ rest)
      = readFileLoop { acc with catalog := s } rest := by
  by_cases hn : s = []
  · subst hn
    rw [if_neg (by simp), List.nil_append]
    have he : { acc with catalog := ([] : Str) } = acc := by rw [← hacc]
    rw [he]
  · rcases hv with hv | hv
    · exact absurd hv hn
    · obtain ⟨hd, -⟩ := catalog_facts s hv
      rw [if_pos hn, List.singleton_append]
      rw [show ("CATALOG ").toList = ("CATALOG").toList ++ [' '] from rfl]
      exact readFileLoop_cons acc _ rest _ _
        (parse_hdr_line _ s (by decide) (by decide)
          (fun c hc => digit_nodelim c (hd c (mem_of_getLast s c hc))) hn)
        (by decide) _ (sheetStep_CATALOG acc s)

theorem hdrSeg_cdtext (acc : Cuesheet) (s : Str) (rest : List Str)
    (hg : goodStrB s = true) (hacc : acc.cdTextFile = []) :
    readFileLoop acc
        ((if s ≠ [] then [("CDTEXTFILE ").toList ++ FormatString s ++ eol] else []) ++ rest)
      = readFileLoop { acc with cdTextFile := s } rest := by
  by_cases hn : s = []
  · subst hn
    rw [if_neg (by simp), List.nil_append]
    have he : { acc with cdTextFile := ([] : Str) } = acc := by rw [← hacc]
    rw [he]
  · rw [if_pos hn, List.singleton_append]
    rw [show ("CDTEXTFILE ").toList = ("CDTEXTFILE").toList ++ [' '] from rfl]
    exact readFileLoop_cons acc _ rest _ _ (parse_hdr_fmt _ s (by decide) (by decide) hg hn)
      (by decide) _ (sheetStep_CDTEXTFILE acc _ s [] (readString_formatted s hg hn))

theorem hdrSeg_title (acc : Cuesheet) (s : Str) (rest : List Str)
    (hg : goodStrB s = true) (hacc : acc.title = []) :
    readFileLoop acc ((if s ≠ [] then [("TITLE ").toList ++ FormatString s ++ eol] else []) ++ rest)
      = readFileLoop { acc with title := s } rest := by
  by_cases hn : s = []
  · subst hn
    rw [if_neg (by simp), List.nil_append]
    have he : { acc with title := ([] : Str) } = acc := by rw [← hacc]
    rw [he]
  · rw [if_pos hn, List.singleton_append]
    rw [show ("TITLE ").toList = ("TITLE").toList ++ [' '] from rfl]
    exact readFileLoop_cons acc _ rest _ _ (parse_hdr_fmt _ s (by decide) (by decide) hg hn)
      (by decide) _ (sheetStep_TITLE acc _ s [] (readString_formatted s hg hn))

theorem hdrSeg_performer (acc : Cuesheet) (s : Str) (rest : List Str)
    (hg : goodStrB s = true) (hacc : acc.performer = []) :
    readFileLoop acc
        ((if s ≠ [] then [("PERFORMER ").toList ++ FormatString s ++ eol] else []) ++ rest)
      = readFileLoop { acc with performer := s } rest := by
  by_cases hn : s = []
  · subst hn
    rw [if_neg (by simp), List.nil_append]
    have he : { acc with performer := ([] : Str) } = acc := by rw [← hacc]
    rw [he]
  · rw [if_pos hn, List.singleton_append]
    rw [show ("PERFORMER ").toList = ("PERFORMER").toList ++ [' '] from rfl]
    exact readFileLoop_cons acc _ rest _ _ (parse_hdr_fmt _ s (by decide) (by decide) hg hn)
      (by decide) _ (sheetStep_PERFORMER acc _ s [] (readString_formatted s hg hn))

theorem hdrSeg_songwriter (acc : Cuesheet) (s : Str) (rest : List Str)
    (hg : goodStrB s = true) (hacc : acc.songWriter = []) :
    readFileLoop acc
        ((if s ≠ [] then [("SONGWRITER ").toList ++ FormatString s ++ eol] else []) ++ rest)
      = readFileLoop { acc with songWriter := s } rest := by
  by_cases hn : s = []
  · subst hn
    rw [if_neg (by simp), List.nil_append]
    have he : { acc with songWriter := ([] : Str) } = acc := by rw [← hacc]
    rw [he]
  · rw [if_pos hn, List.singleton_append]
    rw [show ("SONGWRITER ").toList = ("SONGWRITER").toList ++ [' '] from rfl]
    exact readFileLoop_cons acc _ rest _ _ (parse_hdr_fmt _ s (by decide) (by decide) hg hn)
      (by decide) _ (sheetStep_SONGWRITER acc _ s [] (readString_formatted s hg hn))

theorem hdrSeg_composer (acc : Cuesheet) (s : Str) (rest : List Str)
    (hg : goodStrB s = true) (hacc : acc.composer = []) :
    readFileLoop acc
        ((if s ≠ [] then [("COMPOSER ").toList ++ FormatString s ++ eol] else []) ++ rest)
      = readFileLoop { acc with composer := s } rest := by
  by_cases hn : s = []
  · subst hn
    rw [if_neg (by simp), List.nil_append]
    have he : { acc with composer := ([] : Str) } = acc := by rw [← hacc]
    rw [he]
  · rw [if_pos hn, List.singleton_append]
    rw [show ("COMPOSER ").toList = ("COMPOSER").toList ++ [' '] from rfl]
    exact readFileLoop_cons acc _ rest _ _ (parse_hdr_fmt _ s (by decide) (by decide) hg hn)
      (by decide) _ (sheetStep_COMPOSER acc _ s [] (readString_formatted s hg hn))

theorem hdrSeg_arranger (acc : Cuesheet) (s : Str) (rest : List Str)
    (hg : goodStrB s = true) (hacc : acc.arranger = []) :
    readFileLoop acc
        ((if s ≠ [] then [("ARRANGER ").toList ++ FormatString s ++ eol] else []) ++ rest)
      = readFileLoop { acc with arranger := s } rest := by
  by_cases hn : s = []
  · subst hn
    rw [if_neg (by simp), List.nil_append]
    have he : { acc with arranger := ([] : Str) } = acc := by rw [← hacc]
    rw [he]
  · rw [if_pos hn, List.singleton_append]
    rw [show ("ARRANGER ").toList = ("ARRANGER").toList ++ [' '] from rfl]
    exact readFileLoop_cons acc _ rest _ _ (parse_hdr_fmt _ s (by decide) (by decide) hg hn)
      (by decide) _ (sheetStep_ARRANGER acc _ s [] (readString_formatted s hg hn))

theorem hdrSeg_message (acc : Cuesheet) (s : Str) (rest : List Str)
    (hg : goodStrB s = true) (hacc : acc.message = []) :
    readFileLoop acc
        ((if s ≠ [] then [("MESSAGE ").toList ++ FormatString s ++ eol] else []) ++ rest)
      = readFileLoop { acc with message := s } rest := by
  by_cases hn : s = []
  · subst hn
    rw [if_neg (by simp), List.nil_append]
    have he : { acc with message := ([] : Str) } = acc := by rw [← hacc]
    rw [he]
  · rw [if_pos hn, List.singleton_append]
    rw [show ("MESSAGE ").toList = ("MESSAGE").toList ++ [' '] from rfl]
    exact readFileLoop_cons acc _ rest _ _ (parse_hdr_fmt _ s (by decide) (by decide) hg hn)
      (by decide) _ (sheetStep_MESSAGE acc _ s [] (readString_formatted s hg hn))

theorem hdrSeg_genre (acc : Cuesheet) (s : Str) (rest : List Str)
    (hg : goodStrB s = true) (hacc : acc.genre = []) :
    readFileLoop acc ((if s ≠ [] then [("GENRE ").toList ++ FormatString s ++ eol] else []) ++ rest)
      = readFileLoop { acc with genre := s } rest := by
  by_cases hn : s = []
  · subst hn
    rw [if_neg (by simp), List.nil_append]
    have he : { acc with genre := ([] : Str) } = acc := by rw [← hacc]
    rw [he]
  · rw [if_pos hn, List.singleton_append]
    rw [show ("GENRE ").toList = ("GENRE").toList ++ [' '] from rfl]
    exact readFileLoop_cons acc _ rest _ _ (parse_hdr_fmt _ s (by decide) (by decide) hg hn)
      (by decide) _ (sheetStep_GENRE acc _ s [] (readString_formatted s hg hn))

theorem hdrSeg_discid (acc : Cuesheet) (s : Str) (rest : List Str)
    (hg : goodStrB s = true) (hacc : acc.discId = []) :
    readFileLoop acc
        ((if s ≠ [] then [("DISC_ID ").toList ++ FormatString s ++ eol] else []) ++ rest)
      = readFileLoop { acc with discId := s } rest := by
  by_cases hn : s = []
  · subst hn
    rw [if_neg (by simp), List.nil_append]
    have he : { acc with discId := ([] : Str) } = acc := by rw [← hacc]
    rw [he]
  · rw [if_pos hn, List.singleton_append]
    rw [show ("DISC_ID ").toList = ("DISC_ID").toList ++ [' '] from rfl]
    exact readFileLoop_cons acc _ rest _ _ (parse_hdr_fmt _ s (by decide) (by decide) hg hn)
      (by decide) _ (sheetStep_DISCID acc _ s [] (readString_formatted s hg hn))

theorem hdrSeg_upcean (acc : Cuesheet) (s : Str) (rest : List Str)
    (hg : goodStrB s = true) (hacc : acc.upcEan = []) :
    readFileLoop acc
        ((if s ≠ [] then [("UPC_EAN ").toList ++ FormatString s ++ eol] else []) ++ rest)
      = readFileLoop { acc with upcEan := s } rest := by
  by_cases hn : s = []
  · subst hn
    rw [if_neg (by simp), List.nil_append]
    have he : { acc with upcEan := ([] : Str) } = acc := by rw [← hacc]
    rw [he]
  · rw [if_pos hn, List.singleton_append]
    rw [show ("UPC_EAN ").toList = ("UPC_EAN").toList ++ [' '] from rfl]
    exact readFileLoop_cons acc _ rest _ _ (parse_hdr_fmt _ s (by decide) (by decide) hg hn)
      (by decide) _ (sheetStep_UPCEAN acc _ s [] (readString_formatted s hg hn))

theorem hdrSeg_pregap (acc : Cuesheet) (f : Nat) (rest : List Str)
    (hf : f < 450000) (hacc : acc.pregap = 0) :
    readFileLoop acc ((if f ≠ 0 then [("PREGAP ").toList ++ FormatFrame f ++ eol] else []) ++ rest)
      = readFileLoop { acc with pregap := f } rest := by
  by_cases hn : f = 0
  · subst hn
    rw [if_neg (by simp), List.nil_append]
    have he : { acc with pregap := 0 } = acc := by rw [← hacc]
    rw [he]
  · rw [if_pos hn, List.singleton_append]
    rw [show ("PREGAP ").toList = ("PREGAP").toList ++ [' '] from rfl]
    exact readFileLoop_cons acc _ rest _ _
      (parse_hdr_line _ _ (by decide) (by decide) (fmtFrame_last f hf) (fmtFrame_ne_nil f))
      (by decide) _ (sheetStep_PREGAP acc _ f [] (readFrame_format f hf))

theorem hdrSeg_postgap (acc : Cuesheet) (f : Nat) (rest : List Str)
    (hf : f < 450000) (hacc : acc.postgap = 0) :
    readFileLoop acc ((if f ≠ 0 then [("POSTGAP ").toList ++ FormatFrame f ++ eol] else []) ++ rest)
      = readFileLoop { acc with postgap := f } rest := by
  by_cases hn : f = 0
  · subst hn
    rw [if_neg (by simp), List.nil_append]
    have he : { acc with postgap := 0 } = acc := by rw [← hacc]
    rw [he]
  · rw [if_pos hn, List.singleton_append]
    rw [show ("POSTGAP ").toList = ("POSTGAP").toList ++ [' '] from rfl]
    exact readFileLoop_cons acc _ rest _ _
      (parse_hdr_line _ _ (by decide) (by decide) (fmtFrame_last f hf) (fmtFrame_ne_nil f))
      (by decide) _ (sheetStep_POSTGAP acc _ f [] (readFrame_format f hf))

end Cue

namespace Cue

unseal readFlags readFileLoop readTracks uintDigits

/-! ## Track-detail segment lemmas: one per serialized Track field -/

theorem trkSeg_flags (t : Track) (fl : Nat) (rest : List Str)
    (hmask : fl &&& 30 = fl) (hacc : t.flags = 0) :
    readTrack t ((if fl ≠ 0 then [flagsLine fl] else []) ++ rest)
      = readTrack { t with flags := fl } rest := by
  by_cases hn : fl = 0
  · subst hn
    rw [if_neg (by simp), List.nil_append]
    have he : { t with flags := 0 } = t := by rw [← hacc]
    rw [he]
  · rw [if_pos hn, List.singleton_append]
    have hfl32 : fl < 32 := lt_of_le_of_lt (hmask ▸ Nat.and_le_right) (by norm_num)
    have hp := flags_parse fl hfl32
    cases hq : ReadStringM (trim (flagsLine fl)) with
    | none =>
      rw [hq] at hp
      simp at hp
    | some p =>
      obtain ⟨v, r⟩ := p
      rw [hq] at hp
      simp only [Option.map_some', Option.some.injEq, Prod.mk.injEq] at hp
      obtain ⟨hp1, hp2⟩ := hp
      rw [hmask] at hp2
      subst hp1
      have hpre : (("    ").toList).isPrefixOf (flagsLine fl) = true := by
        rw [show flagsLine fl = ("    ").toList ++ ((("FLAGS").toList
            ++ (if fl &&& 2 ≠ 0 then (" DCP").toList else [])
            ++ (if fl &&& 4 ≠ 0 then (" 4CH").toList else [])
            ++ (if fl &&& 8 ≠ 0 then (" PRE").toList else [])
            ++ (if fl &&& 16 ≠ 0 then (" SCMS").toList else [])) ++ eol) by
          simp [flagsLine]]
        exact isPrefixOf_self_append _ _
      exact readTrack_cons t _ rest _ _ hpre hq _ (trackStep_FLAGS t r fl hp2)

theorem trkSeg_isrc (t : Track) (s : Str) (rest : List Str)
    (hv : s = [] ∨ (ValidateISRC s).isNone = true) (hacc : t.isrc = []) :
    readTrack t ((if s ≠ [] then [("    ISRC ").toList ++ s ++ eol] else []) ++ rest)
      = readTrack { t with isrc := s } rest := by
  by_cases hn : s = []
  · subst hn
    rw [if_neg (by simp), List.nil_append]
    have he : { t with isrc := ([] : Str) } = t := by rw [← hacc]
    rw [he]
  · rcases hv with hv | hv
    · exact absurd hv hn
    · obtain ⟨hd, -⟩ := isrc_facts s hv
      rw [if_pos hn, List.singleton_append]
      rw [show ("    ISRC ").toList = ("    ").toList ++ (("ISRC").toList ++ [' ']) from rfl]
      refine readTrack_cons t _ rest _ _ ?_ ?_ _ (trackStep_ISRC t s)
      · rw [show (("    ").toList ++ (("ISRC").toList ++ [' '])) ++ s ++ eol
            = ("    ").toList ++ ((("ISRC").toList ++ [' ']) ++ (s ++ eol)) by simp]
        exact isPrefixOf_self_append _ _
      · exact parse_ind_line _ _ s (by decide) (by decide) (by decide)
          (fun c hc => alnum_nodelim c (hd c (mem_of_getLast s c hc))) hn

theorem trkSeg_title (t : Track) (s : Str) (rest : List Str)
    (hg : goodStrB s = true) (hacc : t.title = []) :
    readTrack t ((if s ≠ [] then [("    TITLE ").toList ++ FormatString s ++ eol] else []) ++ rest)
      = readTrack { t with title := s } rest := by
  by_cases hn : s = []
  · subst hn
    rw [if_neg (by simp), List.nil_append]
    have he : { t with title := ([] : Str) } = t := by rw [← hacc]
    rw [he]
  · rw [if_pos hn, List.singleton_append]
    rw [show ("    TITLE ").toList = ("    ").toList ++ (("TITLE").toList ++ [' ']) from rfl]
    refine readTrack_cons t _ rest _ _ ?_ ?_ _
      (trackStep_TITLE t _ s [] (readString_formatted s hg hn))
    · rw [show (("    ").toList ++ (("TITLE").toList ++ [' '])) ++ FormatString s ++ eol
          = ("    ").toList ++ ((("TITLE").toList ++ [' ']) ++ (FormatString s ++ eol)) by simp]
      exact isPrefixOf_self_append _ _
    · exact parse_ind_line _ _ _ (by decide) (by decide) (by decide)
        (formatString_last s hg hn) (formatString_ne_nil s hn)

theorem trkSeg_performer (t : Track) (s : Str) (rest : List Str)
    (hg : goodStrB s = true) (hacc : t.performer = []) :
    readTrack t
        ((if s ≠ [] then [("    PERFORMER ").toList ++ FormatString s ++ eol] else []) ++ rest)
      = readTrack { t with performer := s } rest := by
  by_cases hn : s = []
  · subst hn
    rw [if_neg (by simp), List.nil_append]
    have he : { t with performer := ([] : Str) } = t := by rw [← hacc]
    rw [he]
  · rw [if_pos hn, List.singleton_append]
    rw [show ("    PERFORMER ").toList = ("    ").toList ++ (("PERFORMER").toList ++ [' ']) from rfl]
    refine readTrack_cons t _ rest _ _ ?_ ?_ _
      (trackStep_PERFORMER t _ s [] (readString_formatted s hg hn))
    · rw [show (("    ").toList ++ (("PERFORMER").toList ++ [' '])) ++ FormatString s ++ eol
          = ("    ").toList ++ ((("PERFORMER").toList ++ [' ']) ++ (FormatString s ++ eol)) by simp]
      exact isPrefixOf_self_append _ _
    · exact parse_ind_line _ _ _ (by decide) (by decide) (by decide)
        (formatString_last s hg hn) (formatString_ne_nil s hn)

theorem trkSeg_songwriter (t : Track) (s : Str) (rest : List Str)
    (hg : goodStrB s = true) (hacc : t.songWriter = []) :
    readTrack t
        ((if s ≠ [] then [("    SONGWRITER ").toList ++ FormatString s ++ eol] else []) ++ rest)
      = readTrack { t with songWriter := s } rest := by
  by_cases hn : s = []
  · subst hn
    rw [if_neg (by simp), List.nil_append]
    have he : { t with songWriter := ([] : Str) } = t := by rw [← hacc]
    rw [he]
  · rw [if_pos hn, List.singleton_append]
    rw [show ("    SONGWRITER ").toList
        = ("    ").toList ++ (("SONGWRITER").toList ++ [' ']) from rfl]
    refine readTrack_cons t _ rest _ _ ?_ ?_ _
      (trackStep_SONGWRITER t _ s [] (readString_formatted s hg hn))
    · rw [show (("    ").toList ++ (("SONGWRITER").toList ++ [' '])) ++ FormatString s ++ eol
          = ("    ").toList ++ ((("SONGWRITER").toList ++ [' ']) ++ (FormatString s ++ eol)) by simp]
      exact isPrefixOf_self_append _ _
    · exact parse_ind_line _ _ _ (by decide) (by decide) (by decide)
        (formatString_last s hg hn) (formatString_ne_nil s hn)

theorem trkSeg_composer (t : Track) (s : Str) (rest : List Str)
    (hg : goodStrB s = true) (hacc : t.composer = []) :
    readTrack t
        ((if s ≠ [] then [("    COMPOSER ").toList ++ FormatString s ++ eol] else []) ++ rest)
      = readTrack { t with composer := s } rest := by
  by_cases hn : s = []
  · subst hn
    rw [if_neg (by simp), List.nil_append]
    have he : { t with composer := ([] : Str) } = t := by rw [← hacc]
    rw [he]
  · rw [if_pos hn, List.singleton_append]
    rw [show ("    COMPOSER ").toList = ("    ").toList ++ (("COMPOSER").toList ++ [' ']) from rfl]
    refine readTrack_cons t _ rest _ _ ?_ ?_ _
      (trackStep_COMPOSER t _ s [] (readString_formatted s hg hn))
    · rw [show (("    ").toList ++ (("COMPOSER").toList ++ [' '])) ++ FormatString s ++ eol
          = ("    ").toList ++ ((("COMPOSER").toList ++ [' ']) ++ (FormatString s ++ eol)) by simp]
      exact isPrefixOf_self_append _ _
    · exact parse_ind_line _ _ _ (by decide) (by decide) (by decide)
        (formatString_last s hg hn) (formatString_ne_nil s hn)

theorem trkSeg_arranger (t : Track) (s : Str) (rest : List Str)
    (hg : goodStrB s = true) (hacc : t.arranger = []) :
    readTrack t
        ((if s ≠ [] then [("    ARRANGER ").toList ++ FormatString s ++ eol] else []) ++ rest)
      = readTrack { t with arranger := s } rest := by
  by_cases hn : s = []
  · subst hn
    rw [if_neg (by simp), List.nil_append]
    have he : { t with arranger := ([] : Str) } = t := by rw [← hacc]
    rw [he]
  · rw [if_pos hn, List.singleton_append]
    rw [show ("    ARRANGER ").toList = ("    ").toList ++ (("ARRANGER").toList ++ [' ']) from rfl]
    refine readTrack_cons t _ rest _ _ ?_ ?_ _
      (trackStep_ARRANGER t _ s [] (readString_formatted s hg hn))
    · rw [show (("    ").toList ++ (("ARRANGER").toList ++ [' '])) ++ FormatString s ++ eol
          = ("    ").toList ++ ((("ARRANGER").toList ++ [' ']) ++ (FormatString s ++ eol)) by simp]
      exact isPrefixOf_self_append _ _
    · exact parse_ind_line _ _ _ (by decide) (by decide) (by decide)
        (formatString_last s hg hn) (formatString_ne_nil s hn)

theorem trkSeg_message (t : Track) (s : Str) (rest : List Str)
    (hg : goodStrB s = true) (hacc : t.message = []) :
    readTrack t
        ((if s ≠ [] then [("    MESSAGE ").toList ++ FormatString s ++ eol] else []) ++ rest)
      = readTrack { t with message := s } rest := by
  by_cases hn : s = []
  · subst hn
    rw [if_neg (by simp), List.nil_append]
    have he : { t with message := ([] : Str) } = t := by rw [← hacc]
    rw [he]
  · rw [if_pos hn, List.singleton_append]
    rw [show ("    MESSAGE ").toList = ("    ").toList ++ (("MESSAGE").toList ++ [' ']) from rfl]
    refine readTrack_cons t _ rest _ _ ?_ ?_ _
      (trackStep_MESSAGE t _ s [] (readString_formatted s hg hn))
    · rw [show (("    ").toList ++ (("MESSAGE").toList ++ [' '])) ++ FormatString s ++ eol
          = ("    ").toList ++ ((("MESSAGE").toList ++ [' ']) ++ (FormatString s ++ eol)) by simp]
      exact isPrefixOf_self_append _ _
    · exact parse_ind_line _ _ _ (by decide) (by decide) (by decide)
        (formatString_last s hg hn) (formatString_ne_nil s hn)

theorem trkSeg_pregap (t : Track) (f : Nat) (rest : List Str)
    (hf : f < 450000) (hacc : t.pregap = 0) :
    readTrack t ((if f ≠ 0 then [("    PREGAP ").toList ++ FormatFrame f ++ eol] else []) ++ rest)
      = readTrack { t with pregap := f } rest := by
  by_cases hn : f = 0
  · subst hn
    rw [if_neg (by simp), List.nil_append]
    have he : { t with pregap := 0 } = t := by rw [← hacc]
    rw [he]
  · rw [if_pos hn, List.singleton_append]
    rw [show ("    PREGAP ").toList = ("    ").toList ++ (("PREGAP").toList ++ [' ']) from rfl]
    refine readTrack_cons t _ rest _ _ ?_ ?_ _
      (trackStep_PREGAP t _ f [] (readFrame_format f hf))
    · rw [show (("    ").toList ++ (("PREGAP").toList ++ [' '])) ++ FormatFrame f ++ eol
          = ("    ").toList ++ ((("PREGAP").toList ++ [' ']) ++ (FormatFrame f ++ eol)) by simp]
      exact isPrefixOf_self_append _ _
    · exact parse_ind_line _ _ _ (by decide) (by decide) (by decide)
        (fmtFrame_last f hf) (fmtFrame_ne_nil f)

theorem trkSeg_postgap (t : Track) (f : Nat) (rest : List Str)
    (hf : f < 450000) (hacc : t.postgap = 0) :
    readTrack t ((if f ≠ 0 then [("    POSTGAP ").toList ++ FormatFrame f ++ eol] else []) ++ rest)
      = readTrack { t with postgap := f } rest := by
  by_cases hn : f = 0
  · subst hn
    rw [if_neg (by simp), List.nil_append]
    have he : { t with postgap := 0 } = t := by rw [← hacc]
    rw [he]
  · rw [if_pos hn, List.singleton_append]
    rw [show ("    POSTGAP ").toList = ("    ").toList ++ (("POSTGAP").toList ++ [' ']) from rfl]
    refine readTrack_cons t _ rest _ _ ?_ ?_ _
      (trackStep_POSTGAP t _ f [] (readFrame_format f hf))
    · rw [show (("    ").toList ++ (("POSTGAP").toList ++ [' '])) ++ FormatFrame f ++ eol
          = ("    ").toList ++ ((("POSTGAP").toList ++ [' ']) ++ (FormatFrame f ++ eol)) by simp]
      exact isPrefixOf_self_append _ _
    · exact parse_ind_line _ _ _ (by decide) (by decide) (by decide)
        (fmtFrame_last f hf) (fmtFrame_ne_nil f)

theorem readTrack_indexes (t : Track) (ixs : List TrackIndex) (rest : List Str)
    (h : ∀ ix ∈ ixs, goodIndexB ix = true)
    (hstop : ∀ l ls, rest = l :: ls → (("    ").toList).isPrefixOf l = false) :
    readTrack t (List.map indexLine ixs ++ rest)
      = .ok ({ t with index := t.index ++ ixs }, rest) := by
  induction ixs generalizing t with
  | nil =>
    simp only [List.map_nil, List.nil_append, List.append_nil]
    exact readTrack_stop t rest hstop
  | cons ix ixs2 ih =>
    obtain ⟨num, fr⟩ := ix
    have hgi := h ⟨num, fr⟩ (List.mem_cons_self _ _)
    simp only [goodIndexB, Bool.and_eq_true, decide_eq_true_eq] at hgi
    obtain ⟨hnum, hfr⟩ := hgi
    rw [List.map_cons, List.cons_append]
    rw [show indexLine ⟨num, fr⟩
        = (("    ").toList ++ (("INDEX").toList ++ [' ']))
          ++ (FormatTrackNumber num ++ ' ' :: FormatFrame fr) ++ eol by
      simp [indexLine, eol]]
    rw [readTrack_cons t _ _ _ _ ?hpre ?hrs _
      (trackStep_INDEX t _ num (FormatFrame fr) fr [] (readUint_pad2 num (by omega) _)
        (readFrame_format fr hfr))]
    case hpre =>
      rw [show (("    ").toList ++ (("INDEX").toList ++ [' ']))
            ++ (FormatTrackNumber num ++ ' ' :: FormatFrame fr) ++ eol
          = ("    ").toList ++ ((("INDEX").toList ++ [' '])
            ++ ((FormatTrackNumber num ++ ' ' :: FormatFrame fr) ++ eol)) by simp]
      exact isPrefixOf_self_append _ _
    case hrs =>
      refine parse_ind_line _ _ _ (by decide) (by decide) (by decide) ?_ (by simp)
      intro c hc
      rw [getLast_append_cons _ _ _ (fmtFrame_ne_nil fr)] at hc
      exact fmtFrame_last fr hfr c hc
    rw [ih _ (fun ix2 h2 => h ix2 (List.mem_cons_of_mem _ h2))]
    rw [List.append_assoc, List.singleton_append]

end Cue

namespace Cue

unseal readFlags readFileLoop readTracks uintDigits

/-! ## Stop conditions at block boundaries -/

theorem files_flatten_stop (fs : List File) : ∀ l ls,
    (List.map fileLines fs).flatten = l :: ls → (("  ").toList).isPrefixOf l = false := by
  cases fs with
  | nil =>
    intro l ls h
    simp at h
  | cons f fs2 =>
    intro l ls h
    simp only [List.map_cons, List.flatten_cons, fileLines, List.cons_append,
      List.cons.injEq] at h
    obtain ⟨h1, -⟩ := h
    rw [← h1]
    exact prefix2_FILE_false _

theorem tracks_flatten_stop (ts : List Track) (rest : List Str)
    (hstop : ∀ l ls, rest = l :: ls → (("  ").toList).isPrefixOf l = false) : ∀ l ls,
    (List.map trackLines ts).flatten ++ rest = l :: ls
      → (("    ").toList).isPrefixOf l = false := by
  cases ts with
  | nil =>
    intro l ls h
    simp only [List.map_nil, List.flatten_nil, List.nil_append] at h
    exact prefix4_of_prefix2_false l (hstop l ls h)
  | cons t ts2 =>
    intro l ls h
    simp only [List.map_cons, List.flatten_cons, trackLines, List.append_assoc (α := Str),
      List.cons_append (α := Str), List.nil_append (α := Str),
      List.cons.injEq] at h
    obtain ⟨h1, -⟩ := h
    rw [← h1]
    rw [show ("  TRACK ").toList ++ FormatTrackNumber t.trackNumber
          ++ ' ' :: (t.trackDataType ++ eol)
        = ("  TRACK ").toList ++ (FormatTrackNumber t.trackNumber
          ++ ' ' :: (t.trackDataType ++ eol)) by simp]
    exact prefix4_TRACK_false _

/-! ## Reading back a full serialized track, track list, and file list -/

theorem readTrack_full (t : Track) (hg : goodTrackB t = true) (rest : List Str)
    (hstop : ∀ l ls, rest = l :: ls → (("    ").toList).isPrefixOf l = false) :
    readTrack { defTrack with trackNumber := t.trackNumber, trackDataType := t.trackDataType }
      ((if t.flags ≠ 0 then [flagsLine t.flags] else [])
        ++ ((if t.isrc ≠ [] then [("    ISRC ").toList ++ t.isrc ++ eol] else [])
        ++ ((if t.title ≠ [] then [("    TITLE ").toList ++ FormatString t.title ++ eol] else [])
        ++ ((if t.performer ≠ []
              then [("    PERFORMER ").toList ++ FormatString t.performer ++ eol] else [])
        ++ ((if t.songWriter ≠ []
              then [("    SONGWRITER ").toList ++ FormatString t.songWriter ++ eol] else [])
        ++ ((if t.composer ≠ []
              then [("    COMPOSER ").toList ++ FormatString t.composer ++ eol] else [])
        ++ ((if t.arranger ≠ []
              then [("    ARRANGER ").toList ++ FormatString t.arranger ++ eol] else [])
        ++ ((if t.message ≠ []
              then [("    MESSAGE ").toList ++ FormatString t.message ++ eol] else [])
        ++ ((if t.pregap ≠ 0
              then [("    PREGAP ").toList ++ FormatFrame t.pregap ++ eol] else [])
        ++ ((if t.postgap ≠ 0
              then [("    POSTGAP ").toList ++ FormatFrame t.postgap ++ eol] else [])
        ++ (List.map indexLine t.index ++ rest))))))))))) = .ok (t, rest) := by
  obtain ⟨h1, h2, h3, h4, h5, h6, h7, h8, h9, h10, h11, h12, h13, h14⟩ := goodTrackB_facts t hg
  rw [trkSeg_flags _ _ _ h4 rfl]
  rw [trkSeg_isrc _ _ _ h5 rfl]
  rw [trkSeg_title _ _ _ h6 rfl]
  rw [trkSeg_performer _ _ _ h7 rfl]
  rw [trkSeg_songwriter _ _ _ h8 rfl]
  rw [trkSeg_composer _ _ _ h9 rfl]
  rw [trkSeg_arranger _ _ _ h10 rfl]
  rw [trkSeg_message _ _ _ h11 rfl]
  rw [trkSeg_pregap _ _ _ h12 rfl]
  rw [trkSeg_postgap _ _ _ h13 rfl]
  rw [readTrack_indexes _ _ _ h14 hstop]
  rfl

theorem readTracks_blocks (ts : List Track) (rest : List Str)
    (h : ∀ t ∈ ts, goodTrackB t = true)
    (hstop : ∀ l ls, rest = l :: ls → (("  ").toList).isPrefixOf l = false) :
    readTracks ((List.map trackLines ts).flatten ++ rest) = .ok (ts, rest) := by
  induction ts with
  | nil =>
    simp only [List.map_nil, List.flatten_nil, List.nil_append]
    exact readTracks_stop rest hstop
  | cons t ts2 ih =>
    have hgt := h t (List.mem_cons_self _ _)
    obtain ⟨ht1, ht2, ht3, -⟩ := goodTrackB_facts t hgt
    obtain ⟨hdtd, -, -⟩ := safe_chars_facts _ (trackType_chars _ ht3)
    simp only [List.map_cons, List.flatten_cons, trackLines, List.append_assoc (α := Str),
      List.cons_append (α := Str), List.nil_append (α := Str)]
    rw [show ("  TRACK ").toList ++ FormatTrackNumber t.trackNumber
          ++ ' ' :: (t.trackDataType ++ eol)
        = (("  ").toList ++ (("TRACK").toList ++ [' ']))
          ++ (FormatTrackNumber t.trackNumber ++ ' ' :: t.trackDataType) ++ eol by simp [eol]]
    refine readTracks_track _ _ _ _ _ _ _ ?hpre ?hrs
      (readUint_pad2 t.trackNumber (by omega) _) (trackType_rs _ ht3) t _
      (readTrack_full t hgt _
        (tracks_flatten_stop ts2 rest hstop)) ts2 rest
      (ih (fun t2 h2 => h t2 (List.mem_cons_of_mem _ h2)))
    case hpre =>
      rw [show (("  ").toList ++ (("TRACK").toList ++ [' ']))
            ++ (FormatTrackNumber t.trackNumber ++ ' ' :: t.trackDataType) ++ eol
          = ("  ").toList ++ ((("TRACK").toList ++ [' '])
            ++ ((FormatTrackNumber t.trackNumber ++ ' ' :: t.trackDataType) ++ eol)) by simp]
      exact isPrefixOf_self_append _ _
    case hrs =>
      refine parse_ind_line _ _ _ (by decide) (by decide) (by decide) ?_ (by simp)
      intro c hc
      rw [getLast_append_cons _ _ _ (trackType_ne_nil _ ht3)] at hc
      exact hdtd c (mem_of_getLast _ c hc)

theorem readFileLoop_files (acc : Cuesheet) (fs : List File)
    (h : ∀ f ∈ fs, goodFileB f = true) :
    readFileLoop acc ((List.map fileLines fs).flatten)
      = .ok { acc with file := acc.file ++ fs } := by
  induction fs generalizing acc with
  | nil =>
    simp [readFileLoop]
  | cons f fs2 ih =>
    have hgf := h f (List.mem_cons_self _ _)
    obtain ⟨hf1, hf2, hf3, hf4⟩ := goodFileB_facts f hgf
    obtain ⟨hftd, -, -⟩ := safe_chars_facts _ (fileType_chars _ hf3)
    simp only [List.map_cons, List.flatten_cons, fileLines, List.cons_append (α := Str),
      List.append_assoc (α := Str), List.nil_append (α := Str)]
    rw [show ("FILE ").toList ++ FormatString f.fileName ++ ' ' :: (f.fileType ++ eol)
        = (("FILE").toList ++ [' '])
          ++ (FormatString f.fileName ++ ' ' :: f.fileType) ++ eol by simp [eol]]
    obtain ⟨r2, hfa, hfb⟩ := readString_formatted_sep f.fileName hf2 hf1 f.fileType
    have hft : ReadStringM r2 = some (f.fileType, []) := hfb.trans (fileType_rs _ hf3)
    have hrs : ReadStringM (trim ((("FILE").toList ++ [' '])
        ++ (FormatString f.fileName ++ ' ' :: f.fileType) ++ eol))
        = some (("FILE").toList, FormatString f.fileName ++ ' ' :: f.fileType) := by
      refine parse_hdr_line _ _ (by decide) (by decide) ?_ (by simp)
      intro c hc
      rw [getLast_append_cons _ _ _ (fileType_ne_nil _ hf3)] at hc
      exact hftd c (mem_of_getLast _ c hc)
    rw [readFileLoop_file acc _ _ _ hrs f.fileName r2 f.fileType [] hfa hft f.tracks _
      (readTracks_blocks f.tracks _ hf4 (files_flatten_stop fs2))]
    rw [ih _ (fun f2 h2 => h f2 (List.mem_cons_of_mem _ h2))]
    rw [List.append_assoc, List.singleton_append]

end Cue

namespace Cue

unseal readFlags readFileLoop readTracks uintDigits

/-! ## Claim C1 (amended): the serialize/parse round trip -/

/-- C1 amended: for every cuesheet that Validate accepts AND that satisfies
the serialization-safety conditions CueWF (no newlines in string fields and
no quote/backslash in quoted fields, bare fields not starting with a quote,
REM payloads not ending in a delimiter, frame counts below 450000 =
100 minutes, flags within the four defined bits, nonempty file names),
parsing the text written by WriteFile returns exactly the original sheet:
ReadFile (WriteFile c) = Ok c.  Validate alone is NOT sufficient — see the
counterexample, a Validate-accepted sheet with an index at frame 450000
whose minutes are truncated by leftPad on output. -/
theorem trsC1 (c : Cuesheet) (hval : Cuesheet.Validate c = []) (hwf : CueWF c = true) :
    ReadFile (WriteFile c) = .ok c := by
  obtain ⟨h1, h2, h3, h4, h5, h6, h7, h8, h9, h10, h11, h12, h13, h14, h15⟩ := CueWF_facts c hwf
  show readFileLoop defCuesheet (linesOf (sheetLines c).flatten) = .ok c
  rw [linesOf_flatten _ (sheetLines_shape c hwf)]
  simp only [sheetLines, List.append_assoc (α := Str)]
  rw [hdrSeg_rems _ _ _ h1]
  rw [hdrSeg_catalog _ _ _ h2 rfl]
  rw [hdrSeg_cdtext _ _ _ h3 rfl]
  rw [hdrSeg_title _ _ _ h4 rfl]
  rw [hdrSeg_performer _ _ _ h5 rfl]
  rw [hdrSeg_songwriter _ _ _ h6 rfl]
  rw [hdrSeg_composer _ _ _ h7 rfl]
  rw [hdrSeg_arranger _ _ _ h8 rfl]
  rw [hdrSeg_message _ _ _ h9 rfl]
  rw [hdrSeg_genre _ _ _ h10 rfl]
  rw [hdrSeg_discid _ _ _ h11 rfl]
  rw [hdrSeg_upcean _ _ _ h12 rfl]
  rw [hdrSeg_pregap _ _ _ h13 rfl]
  rw [hdrSeg_postgap _ _ _ h14 rfl]
  rw [readFileLoop_files _ _ h15]
  rfl

/-- C1 witness: a concrete sheet accepted by Validate and CueWF on which
the round trip is instantiated. -/
theorem witC1 : Cuesheet.Validate sheetOK = [] ∧ CueWF sheetOK = true ∧
    ReadFile (WriteFile sheetOK) = .ok sheetOK :=
  ⟨by decide, by decide, trsC1 sheetOK (by decide) (by decide)⟩

end Cue
